import Mathlib

/-!
# A shallow embedding of `game/main.go`

The Go program keeps its rooms behind pointers (`*Room`) and two package-level
variables, `player` and `world`.  The embedding makes that explicit:

* a `*Room` is an address, a `Nat` that indexes the list `State.rooms` (the heap
  of rooms); an address outside the heap stands for `nil`;
* a slice is a `List`, each slice with a backing array of its own, as in
  `initGame`: `append(s[:i], s[i+1:]...)` followed by a `return` is then the
  removal of element `i`;
* a `string` is a `String`, `strings.Split(s, " ")` splits at every space
  character and `strings.Join` is `String.intercalate`;
* a handler takes the state and returns `Option (String × State)`: the answer
  and the state after the call, or `none` where Go would stop with a run-time
  error (a `nil` dereference or an index out of range);
* the function values stored in `Goal.сheck` are the two closures written in
  `initGame`, the only ones of the program; they are the two constructors of
  `GoalCheck`, run by `GoalCheck.run`.

Loops that return from inside their body are recursive functions over what is
left to visit (`goLoop`, `applyLoop`, `collectLoop`, `checkGoals`); the two
nested searches of the wear and take handlers are `findInContainers`, which
yields the indices at which the body of the loop runs.

Two names differ from the source because Lean reserves the word: the fields
`prefix` of `Description` and `RoomContainer` are `pfx` here.  The field
`сheck` of `Goal` (spelt with a Cyrillic first letter in the source) is `check`.
-/

namespace Game

/-! ## Data model (main.go, lines 10-62) -/

/-- Item is a thing of the game: `name, itemType string`. -/
structure Item where
  name : String
  itemType : String
  deriving DecidableEq, Repr

/-- Description holds the texts and tags of a room. -/
structure Description where
  goCase : String := ""
  lookCase : String := ""
  area : String := ""
  pfx : String := ""
  goalPrefix : String := ""
  locker : String := ""
  keyType : String := ""
  emptyMsg : String := ""
  lockedMsg : String := ""
  unlockedMsg : String := ""
  deriving DecidableEq, Repr

/-- PlayerContainer is the inventory of the player. -/
structure PlayerContainer where
  isPuttedOn : Bool
  inventory : List Item
  deriving DecidableEq, Repr

/-- RoomContainer is a container (an inventory) standing in a room. -/
structure RoomContainer where
  pfx : String
  inventory : List Item
  deriving DecidableEq, Repr

/-- The function values a `Goal` can hold: the two closures of `initGame`
(main.go, lines 384-398 and 403-407). -/
inductive GoalCheck where
  | collectBackpack
  | goToUniversity
  deriving DecidableEq, Repr

/-- Goal is a goal of the game. -/
structure Goal where
  title : String
  isAchieved : Bool
  check : GoalCheck
  deriving DecidableEq, Repr

/-- Room is a room; `passages` holds the addresses of the rooms it leads to. -/
structure Room where
  name : String
  description : Description
  containers : List RoomContainer
  passages : List Nat
  isLocked : Bool
  goals : List Goal
  deriving DecidableEq, Repr

/-- Player is the player; `location` is the address of the current room. -/
structure Player where
  container : PlayerContainer
  location : Nat
  deriving DecidableEq, Repr

/-- The program state: the package variables `player` and `world`, and the heap
of rooms the pointers of both refer to. -/
structure State where
  player : Player
  world : List (String × Nat)
  rooms : List Room
  deriving DecidableEq, Repr

/-- A `*Goal`: the address of a room and an index into its `goals`. -/
structure GoalPtr where
  room : Nat
  idx : Nat
  deriving DecidableEq, Repr

/-! ## Library functions of Go used by the program -/

/-- The Go function `strings.Join(elems, sep)`. -/
def stringsJoin (elems : List String) (sep : String) : String :=
  sep.intercalate elems

/-- Splitting a list of characters at every single space; the result is never
empty. -/
def splitChars : List Char → List (List Char)
  | [] => [[]]
  | c :: cs =>
    if c = ' ' then [] :: splitChars cs
    else
      match splitChars cs with
      | [] => [[c]]
      | w :: ws => (c :: w) :: ws

/-- The Go call `strings.Split(s, " ")`. -/
def stringsSplit (s : String) : List String :=
  (splitChars s.data).map String.mk

/-- The Go expression `append(s[:i], s[i+1:]...)`; slicing at `i+1` needs
`i + 1 ≤ len(s)`. -/
def removeAt (s : List Item) (i : Nat) : Option (List Item) :=
  if i + 1 ≤ s.length then some (s.take i ++ s.drop (i + 1)) else none

/-! ## lookAround (main.go, lines 64-155) -/

/-- The loop of lines 84-105: one entry per non-empty container. -/
def inventoryMsg : List RoomContainer → List String
  | [] => []
  | container :: rest =>
    let items := container.inventory.map (fun item => item.name)
    if items.length > 0 then
      stringsJoin [container.pfx, stringsJoin items ", "] ": " :: inventoryMsg rest
    else inventoryMsg rest

/-- The flag `emptyContainers` after the loop of lines 84-105. -/
def emptyContainers (containers : List RoomContainer) : Bool :=
  containers.all (fun container => container.inventory.length == 0)

/-- The loop of lines 120-124: the titles of the goals not yet achieved. -/
def pendingGoals (goals : List Goal) : List String :=
  (goals.filter (fun goal => !goal.isAchieved)).map (fun goal => goal.title)

/-- The loop of lines 142-149: one label per passage. -/
def availablePassages (rooms : List Room) (area : String) : List Nat → Option (List String)
  | [] => some []
  | p :: ps =>
    match rooms[p]? with
    | none => none
    | some passage =>
      (availablePassages rooms area ps).map
        (fun labels =>
          (if passage.description.area = area then passage.name
           else passage.description.area) :: labels)

/-- The slice `answer` when line 134 is reached. -/
def lookAnswer (location : Room) (isGoCase : Bool) : List String :=
  let answer : List String :=
    if location.description.lookCase ≠ "" ∧ isGoCase = false then
      [location.description.lookCase]
    else if location.description.goCase ≠ "" ∧ isGoCase = true then
      [location.description.goCase]
    else []
  if isGoCase = false then
    let answer :=
      if location.containers.length > 0 then
        if emptyContainers location.containers then
          answer ++ [location.description.emptyMsg]
        else
          answer ++ [stringsJoin (inventoryMsg location.containers) ", "]
      else answer
    if location.goals.length > 0 then
      answer ++ [stringsJoin [location.description.goalPrefix,
        stringsJoin (pendingGoals location.goals) " и "] " "]
    else answer
  else answer

/-- The function `lookAround(player, isGoCase)`. -/
def lookAround (rooms : List Room) (player : Player) (isGoCase : Bool) : Option String :=
  match rooms[player.location]? with
  | none => none
  | some location =>
    let fullAnswer := [stringsJoin (lookAnswer location isGoCase) ", "]
    if location.passages.length > 0 then
      match availablePassages rooms location.description.area location.passages with
      | none => none
      | some labels =>
        some (stringsJoin
          (fullAnswer ++ [stringsJoin ["можно пройти", stringsJoin labels ", "] " - "]) ". ")
    else some (stringsJoin fullAnswer ". ")

/-! ## Goals (main.go, lines 157-162 and the closures of lines 384-407) -/

/-- The assignment `room.goals[i].isAchieved = true`. -/
def setAchieved (s : State) (room : Nat) (i : Nat) : Option State :=
  match s.rooms[room]? with
  | none => none
  | some r =>
    match r.goals[i]? with
    | none => none
    | some g =>
      let g1 : Goal := { g with isAchieved := true }
      let r1 : Room := { r with goals := r.goals.set i g1 }
      some { s with rooms := s.rooms.set room r1 }

/-- The loop of lines 387-397, with the two local flags as arguments. -/
def collectLoop (kitchen : Nat) : List Item → Bool → Bool → State → Option State
  | [], _, _, s => some s
  | item :: rest, keysTaken, notesTaken, s =>
    let keysTaken := if item.name = "ключи" then true else keysTaken
    let notesTaken := if item.name = "конспекты" then true else notesTaken
    if keysTaken && notesTaken then
      match setAchieved s kitchen 0 with
      | none => none
      | some s1 => collectLoop kitchen rest keysTaken notesTaken s1
    else collectLoop kitchen rest keysTaken notesTaken s

/-- Calling a goal's function value: `сheck(player, goalRoom)`. -/
def GoalCheck.run : GoalCheck → State → Player → Nat → Option State
  | .collectBackpack, s, player, kitchen =>
    collectLoop kitchen player.container.inventory false false s
  | .goToUniversity, s, player, kitchen =>
    match s.rooms[kitchen]? with
    | none => none
    | some k =>
      match k.goals[0]? with
      | none => none
      | some g0 =>
        if g0.isAchieved then
          match s.rooms[player.location]? with
          | none => none
          | some location =>
            if location.name = "улица" then setAchieved s kitchen 1 else some s
        else some s

/-- The function `checkGoals(room, goals...)`. -/
def checkGoals (room : Nat) : List GoalPtr → State → Option State
  | [], s => some s
  | goal :: rest, s =>
    match s.rooms[goal.room]? with
    | none => none
    | some r =>
      match r.goals[goal.idx]? with
      | none => none
      | some g =>
        match g.check.run s s.player room with
        | none => none
        | some s1 => checkGoals room rest s1

/-- The expression `&world[name].goals[i]`. -/
def goalAddr (s : State) (name : String) (i : Nat) : Option GoalPtr :=
  match s.world.lookup name with
  | none => none
  | some room =>
    match s.rooms[room]? with
    | none => none
    | some r => if i < r.goals.length then some ⟨room, i⟩ else none

/-! ## Command handlers (main.go, lines 164-258) -/

/-- The function `handleLookCommand()`. -/
def handleLookCommand (s : State) : Option (String × State) :=
  (lookAround s.rooms s.player false).map (fun answer => (answer, s))

/-- The loop of lines 177-186 over the passages still to visit. -/
def goLoop (s : State) (destination : String) : List Nat → Option (String × State)
  | [] => some ("нет пути в " ++ destination, s)
  | p :: ps =>
    match s.rooms[p]? with
    | none => none
    | some passage =>
      if passage.isLocked then some (passage.description.lockedMsg, s)
      else if destination = passage.name ∨ destination = passage.description.area then
        let s1 : State := { s with player := { s.player with location := p } }
        (lookAround s1.rooms s1.player true).map (fun answer => (answer, s1))
      else goLoop s destination ps

/-- The function `handleGoCommand(parsedCommand)`. -/
def handleGoCommand (s : State) : List String → Option (String × State)
  | [_, destination] =>
    match s.rooms[s.player.location]? with
    | none => none
    | some location => goLoop s destination location.passages
  | _ => some ("неверное количество аргументов для команды 'идти'", s)

/-- An inner loop over the items of one container (lines 200 and 225): the
index and the item of the first hit. -/
def findItem (hit : Item → Bool) : List Item → Nat → Option (Nat × Item)
  | [], _ => none
  | item :: rest, idxItem =>
    if hit item then some (idxItem, item) else findItem hit rest (idxItem + 1)

/-- An outer loop over the containers of a room (lines 199 and 224): the
container index, the item index and the item of the first hit. -/
def findInContainers (hit : Item → Bool) : List RoomContainer → Nat → Option (Nat × Nat × Item)
  | [], _ => none
  | container :: rest, idxContainer =>
    match findItem hit container.inventory 0 with
    | some (idxItem, item) => some (idxContainer, idxItem, item)
    | none => findInContainers hit rest (idxContainer + 1)

/-- The assignment of lines 203 and 228:
`player.location.containers[idxContainer].inventory = append(inv[:idxItem], inv[idxItem+1:]...)`. -/
def removeFromContainer (s : State) (idxContainer idxItem : Nat) : Option State :=
  match s.rooms[s.player.location]? with
  | none => none
  | some location =>
    match location.containers[idxContainer]? with
    | none => none
    | some container =>
      match removeAt container.inventory idxItem with
      | none => none
      | some inventory =>
        let container1 : RoomContainer := { container with inventory := inventory }
        let location1 : Room :=
          { location with containers := location.containers.set idxContainer container1 }
        some { s with rooms := s.rooms.set s.player.location location1 }

/-- The test of line 201. -/
def isWearable (wearedItem : String) (item : Item) : Bool :=
  item.itemType = "playerContainer" && item.name = wearedItem

/-- The test of line 226. -/
def isTakeable (takenItem : String) (item : Item) : Bool :=
  (item.itemType = "item" || item.itemType = "key") && item.name = takenItem

/-- The function `handleWearCommand(parsedCommand)`. -/
def handleWearCommand (s : State) : List String → Option (String × State)
  | [_, wearedItem] =>
    match s.rooms[s.player.location]? with
    | none => none
    | some location =>
      match findInContainers (isWearable wearedItem) location.containers 0 with
      | some (idxContainer, idxItem, item) =>
        let s1 : State :=
          { s with player := { s.player with
              container := { s.player.container with isPuttedOn := true } } }
        (removeFromContainer s1 idxContainer idxItem).map
          (fun s2 => ("вы надели: " ++ item.name, s2))
      | none => some ("нечего надеть", s)
  | _ => some ("неверное количество аргументов для команды 'надеть'", s)

/-- The function `handleTakeCommand(parsedCommand)`. -/
def handleTakeCommand (s : State) : List String → Option (String × State)
  | [_, takenItem] =>
    if s.player.container.isPuttedOn = false then some ("некуда класть", s)
    else
      match s.rooms[s.player.location]? with
      | none => none
      | some location =>
        match findInContainers (isTakeable takenItem) location.containers 0 with
        | some (idxContainer, idxItem, item) =>
          let s1 : State :=
            { s with player := { s.player with
                container := { s.player.container with
                  inventory := s.player.container.inventory ++ [item] } } }
          (removeFromContainer s1 idxContainer idxItem).map
            (fun s2 => ("предмет добавлен в инвентарь: " ++ item.name, s2))
        | none => some ("нет такого", s)
  | _ => some ("неверное количество аргументов для команды 'взять'", s)

/-- The loop of lines 247-252 over the passages still to visit. -/
def applyLoop (s : State) (item : Item) : List Nat → Option (String × State)
  | [] => some ("не к чему применить", s)
  | p :: ps =>
    match s.rooms[p]? with
    | none => none
    | some location =>
      if location.description.keyType = item.itemType ∧ location.isLocked = true then
        let location1 : Room := { location with isLocked := false }
        some (location.description.unlockedMsg, { s with rooms := s.rooms.set p location1 })
      else applyLoop s item ps

/-- The function `handleApplyCommand(parsedCommand)`. -/
def handleApplyCommand (s : State) : List String → Option (String × State)
  | [_, appliedItem, _] =>
    match s.player.container.inventory.find? (fun item => item.name = appliedItem) with
    | some item =>
      match s.rooms[s.player.location]? with
      | none => none
      | some location => applyLoop s item location.passages
    | none => some ("нет предмета в инвентаре - " ++ appliedItem, s)
  | _ => some ("неверное количество аргументов для команды 'применить'", s)

/-! ## handleCommand (main.go, lines 428-453) -/

/-- Line 430: `checkGoals(world["кухня"], &world["кухня"].goals[0], &world["кухня"].goals[1])`. -/
def evalGoals (s : State) : Option State :=
  match goalAddr s "кухня" 0, goalAddr s "кухня" 1 with
  | some g0, some g1 => checkGoals g0.room [g0, g1] s
  | _, _ => none

/-- Lines 432-452: splitting the line and the `switch` on the first token. -/
def dispatch (s : State) (command : String) : Option (String × State) :=
  let parsedCommand := stringsSplit command
  match parsedCommand[0]? with
  | none => none
  | some action =>
    if action = "осмотреться" then handleLookCommand s
    else if action = "идти" then handleGoCommand s parsedCommand
    else if action = "надеть" then handleWearCommand s parsedCommand
    else if action = "взять" then handleTakeCommand s parsedCommand
    else if action = "применить" then handleApplyCommand s parsedCommand
    else some ("неизвестная команда", s)

/-- The function `handleCommand(command)`. -/
def handleCommand (s : State) (command : String) : Option (String × State) :=
  match evalGoals s with
  | none => none
  | some s1 => dispatch s1 command

/-! ## initGame (main.go, lines 282-426) -/

/-- Address of the room `kitchen`. -/
def kitchenAddr : Nat := 0
/-- Address of the room `corridor`. -/
def corridorAddr : Nat := 1
/-- Address of the room `room`. -/
def roomAddr : Nat := 2
/-- Address of the room `street`. -/
def streetAddr : Nat := 3

/-- The room `kitchen` of `initGame`. -/
def kitchen : Room :=
  { name := "кухня"
    description :=
      { lookCase := "ты находишься на кухне"
        goCase := "кухня, ничего интересного"
        pfx := "на столе"
        goalPrefix := "надо"
        area := "домой" }
    containers := [⟨"на столе", [⟨"чай", "item"⟩]⟩]
    passages := [corridorAddr]
    isLocked := false
    goals := [⟨"собрать рюкзак", false, .collectBackpack⟩,
              ⟨"идти в универ", false, .goToUniversity⟩] }

/-- The room `corridor` of `initGame`. -/
def corridor : Room :=
  { name := "коридор"
    description := { goCase := "ничего интересного", area := "домой" }
    containers := []
    passages := [kitchenAddr, roomAddr, streetAddr]
    isLocked := false
    goals := [] }

/-- The room `room` of `initGame`. -/
def room : Room :=
  { name := "комната"
    description :=
      { goCase := "ты в своей комнате", area := "домой", emptyMsg := "пустая комната" }
    containers :=
      [⟨"на столе", [⟨"ключи", "key"⟩, ⟨"конспекты", "item"⟩]⟩,
       ⟨"на стуле", [⟨"рюкзак", "playerContainer"⟩]⟩]
    passages := [corridorAddr]
    isLocked := false
    goals := [] }

/-- The room `street` of `initGame`. -/
def street : Room :=
  { name := "улица"
    description :=
      { goCase := "на улице весна"
        locker := "дверь"
        keyType := "key"
        lockedMsg := "дверь закрыта"
        unlockedMsg := "дверь открыта"
        area := "улица" }
    containers := []
    passages := [corridorAddr]
    isLocked := true
    goals := [] }

/-- The state `initGame()` builds. -/
def initGame : State :=
  { player := { container := ⟨false, []⟩, location := kitchenAddr }
    world := [("кухня", kitchenAddr), ("коридор", corridorAddr),
              ("комната", roomAddr), ("улица", streetAddr)]
    rooms := [kitchen, corridor, room, street] }

/-! ## States and texts the statements refer to -/

/-- The state after a successful take: the item at the end of the inventory and
erased from its container. -/
def afterTake (s : State) (location : Room) (ci ii : Nat) (c : RoomContainer) (item : Item) :
    State :=
  { player := { container := { isPuttedOn := s.player.container.isPuttedOn,
                               inventory := s.player.container.inventory ++ [item] },
                location := s.player.location },
    world := s.world,
    rooms := s.rooms.set s.player.location { location with
      containers := location.containers.set ci { c with
        inventory := c.inventory.eraseIdx ii } } }

/-- The state after a successful wear: the flag set and the item erased from its
container. -/
def afterWear (s : State) (location : Room) (ci ii : Nat) (c : RoomContainer) : State :=
  { player := { container := { isPuttedOn := true,
                               inventory := s.player.container.inventory },
                location := s.player.location },
    world := s.world,
    rooms := s.rooms.set s.player.location { location with
      containers := location.containers.set ci { c with
        inventory := c.inventory.eraseIdx ii } } }

/-- A state for the wear handler: the player stands in the room `room` of the
shipped world with the flag `isPuttedOn` already true. -/
def wornInRoom : State :=
  { initGame with player := { container := ⟨true, []⟩, location := roomAddr } }

/-- The label of one exit in the exits clause (lines 143-147). -/
def exitLabel (area : String) (passage : Room) : String :=
  if passage.description.area = area then passage.name else passage.description.area

/-- The labels of the exits `ps` that exist in the heap, in list order. -/
def exitLabels (rooms : List Room) (area : String) (ps : List Nat) : List String :=
  ps.filterMap (fun q => (rooms[q]?).map (exitLabel area))

/-- The answer of `lookAround(player, true)` in the room `r`: the `goCase` text,
then the exits clause when the room has exits. -/
def enterText (rooms : List Room) (r : Room) : String :=
  if r.passages = [] then r.description.goCase
  else r.description.goCase ++ ". " ++
    ("можно пройти" ++ " - " ++ stringsJoin (exitLabels rooms r.description.area r.passages) ", ")

/-- The state `s` with the player moved to the address `p`. -/
def moveTo (s : State) (p : Nat) : State :=
  { s with player := { s.player with location := p } }

/-- The player of the shipped world standing in the corridor. -/
def inCorridor : State :=
  { initGame with player := { container := ⟨false, []⟩, location := corridorAddr } }

/-- The player of the shipped world standing in the room `room`. -/
def inRoom : State :=
  { initGame with player := { container := ⟨false, []⟩, location := roomAddr } }

/-- The state `s` with the room at address `p` unlocked. -/
def unlock (s : State) (p : Nat) (target : Room) : State :=
  { s with rooms := s.rooms.set p { target with isLocked := false } }

/-- The player of the shipped world standing in the corridor with the backpack on
and the keys and the notes in the inventory. -/
def packedInCorridor : State :=
  { initGame with
    player := { container := ⟨true, [⟨"конспекты", "item"⟩, ⟨"ключи", "key"⟩]⟩,
                location := corridorAddr } }

/-- The state `s` in which goal `i` of the room `kr` at address `k` has its flag
set, the goal being `g` before. -/
def markAchieved (s : State) (k i : Nat) (kr : Room) (g : Goal) : State :=
  { s with rooms := s.rooms.set k { kr with goals := kr.goals.set i { g with isAchieved := true } } }

/-- Whether the inventory `inv` holds an item called `name`. -/
def holds (inv : List Item) (name : String) : Bool :=
  inv.any (fun item => item.name = name)

/-- The flag of goal 0 after one evaluation: already set, or both things held. -/
def achieved0 (s : State) (g0 : Goal) : Bool :=
  g0.isAchieved || (holds s.player.container.inventory "ключи" &&
    holds s.player.container.inventory "конспекты")

/-- The flag of goal 1 after one evaluation: already set, or goal 0 set by now and
the player in a room called "улица". -/
def achieved1 (s : State) (location : Room) (g0 g1 : Goal) : Bool :=
  g1.isAchieved || (achieved0 s g0 && decide (location.name = "улица"))

/-- The state after one evaluation of the two kitchen goals `g0`, `g1`. -/
def afterGoals (s : State) (k : Nat) (kr location : Room) (g0 g1 : Goal) (rest : List Goal) :
    State :=
  { s with rooms := s.rooms.set k { kr with
      goals := { g0 with isAchieved := achieved0 s g0 } ::
        { g1 with isAchieved := achieved1 s location g0 g1 } :: rest } }

/-- The player of the shipped world standing in the street with the keys and the
notes in the inventory, no goal achieved yet. -/
def packedOnStreet : State :=
  { initGame with
    player := { container := ⟨true, [⟨"конспекты", "item"⟩, ⟨"ключи", "key"⟩]⟩,
                location := streetAddr } }

/-- Feeding command lines one by one to `handleCommand`, as the loop of `main`
does; the answers are dropped. -/
def runCommands : State → List String → Option State
  | s, [] => some s
  | s, command :: rest =>
    match handleCommand s command with
    | none => none
    | some (_, s1) => runCommands s1 rest

/-- The goal `g'` is the goal `g` later on: the same goal, its flag not reset. -/
def GoalLe (g g' : Goal) : Prop :=
  g'.title = g.title ∧ g'.check = g.check ∧ (g.isAchieved = true → g'.isAchieved = true)

/-- The room `r'` is the room `r` later on: same name, texts and exits, goals
later on, and not locked again once unlocked. -/
def RoomLe (r r' : Room) : Prop :=
  r'.name = r.name ∧ r'.description = r.description ∧ r'.passages = r.passages ∧
    (r.isLocked = false → r'.isLocked = false) ∧ List.Forall₂ GoalLe r.goals r'.goals

/-- The state `s'` is the state `s` later on: the same world map, and address by
address the same rooms later on. -/
def StateLe (s s' : State) : Prop :=
  s'.world = s.world ∧ List.Forall₂ RoomLe s.rooms s'.rooms

/-- The shipped world after the keys were applied in the corridor: the street is
unlocked. -/
def streetOpened : State :=
  unlock packedInCorridor streetAddr street

/-- The shipped world with goal 0 already achieved and the player, empty-handed,
in the kitchen. -/
def goal0Done : State :=
  { initGame with
    rooms := [{ kitchen with goals := [⟨"собрать рюкзак", true, .collectBackpack⟩,
                                       ⟨"идти в универ", false, .goToUniversity⟩] },
              corridor, room, street] }

/-- The initial state with the backpack already on: the player is in the kitchen
and may take things. -/
def wornInKitchen : State :=
  { initGame with player := { container := ⟨true, []⟩, location := kitchenAddr } }

/-- Feeding command lines one by one to `handleCommand`, as the loop of `main`
does, and keeping the answers in order. -/
def runAnswers : State → List String → Option (List String × State)
  | s, [] => some ([], s)
  | s, command :: rest =>
    match handleCommand s command with
    | none => none
    | some (answer, s1) =>
      match runAnswers s1 rest with
      | none => none
      | some (answers, s2) => some (answer :: answers, s2)

/-- The flags of the goals of the room at address `k`, in order. -/
def goalFlags (s : State) (k : Nat) : Option (List Bool) :=
  (s.rooms[k]?).map (fun r => r.goals.map (fun g => g.isAchieved))

/-- The name of the room the player is in. -/
def locationName (s : State) : Option String :=
  (s.rooms[s.player.location]?).map (fun r => r.name)

/-- The shipped world with the exits of the corridor listed street first, the
player standing in the corridor. -/
def streetFirst : State :=
  { initGame with
    player := { container := ⟨false, []⟩, location := corridorAddr }
    rooms := [kitchen, { corridor with passages := [streetAddr, kitchenAddr, roomAddr] },
              room, street] }

/-- The kitchen with both goals achieved. -/
def wonKitchen : Room :=
  { kitchen with goals := [⟨"собрать рюкзак", true, .collectBackpack⟩,
                           ⟨"идти в универ", true, .goToUniversity⟩] }

/-- The state of a won game: both goals achieved, the things taken, the street
unlocked and the player standing in it. -/
def wonGame : State :=
  { player := { container := ⟨true, [⟨"ключи", "key"⟩, ⟨"конспекты", "item"⟩]⟩,
                location := streetAddr }
    world := initGame.world
    rooms := [wonKitchen, corridor,
              { room with containers := [⟨"на столе", []⟩, ⟨"на стуле", []⟩] },
              { street with isLocked := false }] }

/-- Whether the room at address `k` is locked. -/
def lockFlag (s : State) (k : Nat) : Option Bool :=
  (s.rooms[k]?).map (fun r => r.isLocked)

/-- The scenario as first told: the things are taken back in the kitchen. -/
def scenarioKitchen : List String :=
  ["взять ключи", "идти коридор", "идти комната", "надеть рюкзак", "идти коридор",
   "идти кухня", "взять ключи", "взять конспекты"]

/-- The scenario with the things taken where they lie, in the room, up to and
including the two takes. -/
def scenarioTaken : List String :=
  ["взять ключи", "идти коридор", "идти комната", "надеть рюкзак", "взять ключи",
   "взять конспекты"]

/-- The exits clause of a room, in the words of the specification: "можно пройти - "
followed by the labels of the exits joined by ", ". -/
def exitsClause (rooms : List Room) (location : Room) : String :=
  "можно пройти - " ++
    ", ".intercalate (exitLabels rooms location.description.area location.passages)

/-- The entry of one container in the look sentence: its prefix, ": ", and the
names of its items joined by ", ". -/
def containerEntry (c : RoomContainer) : String :=
  c.pfx ++ ": " ++ ", ".intercalate (c.inventory.map (fun item => item.name))

/-- The container clause of the look sentence, in the words of the specification:
the entries of the non-empty containers joined by ", ", or the room's `emptyMsg`
when every container is empty. -/
def containerClause (location : Room) : String :=
  if ∀ c ∈ location.containers, c.inventory = [] then location.description.emptyMsg
  else ", ".intercalate
    ((location.containers.filter (fun c => !c.inventory.isEmpty)).map containerEntry)

/-- The goal clause of the look sentence, in the words of the specification: the
room's `goalPrefix`, a space, and the titles of the goals not yet achieved joined
by " и ". -/
def goalClause (location : Room) : String :=
  location.description.goalPrefix ++ " " ++
    " и ".intercalate
      ((location.goals.filter (fun g => g.isAchieved = false)).map (fun g => g.title))

/-- The description sentence of the look response, in the words of the
specification: the ", "-join of the `lookCase` text when it is not empty, the
container clause when the room has a container, and the goal clause when the room
has a goal. -/
def lookSentence (location : Room) : String :=
  ", ".intercalate
    ((if location.description.lookCase = "" then [] else [location.description.lookCase]) ++
     (if location.containers = [] then [] else [containerClause location]) ++
     (if location.goals = [] then [] else [goalClause location]))

/-- The player of the shipped world standing in the street. -/
def inStreet : State :=
  { initGame with player := { container := ⟨false, []⟩, location := streetAddr } }

/-- The room `r'` is the room `r` with at most some goal flags set since. -/
def RoomGoalsOnly (r r' : Room) : Prop :=
  r'.name = r.name ∧ r'.description = r.description ∧ r'.containers = r.containers ∧
    r'.passages = r.passages ∧ r'.isLocked = r.isLocked ∧ List.Forall₂ GoalLe r.goals r'.goals

/-- The state `s'` is the state `s` with at most some goal flags set since: the same
player, the same world map and, address by address, the same rooms but for that. -/
def GoalsOnly (s s' : State) : Prop :=
  s'.player = s.player ∧ s'.world = s.world ∧ List.Forall₂ RoomGoalsOnly s.rooms s'.rooms

/-- Every pointer of the state points into the heap, and the world maps "кухня" to a
room with at least two goals. -/
def WF (s : State) : Prop :=
  s.player.location < s.rooms.length ∧
  (∀ r ∈ s.rooms, ∀ p ∈ r.passages, p < s.rooms.length) ∧
  ∃ k, s.world.lookup "кухня" = some k ∧
    ∃ kr, s.rooms[k]? = some kr ∧ 2 ≤ kr.goals.length

/-- The room the player is in exists and is not locked. -/
def InUnlockedRoom (s : State) : Prop :=
  ∃ r, s.rooms[s.player.location]? = some r ∧ r.isLocked = false

/-- The player of the shipped world in the corridor holding two things called
"ключи": one of type "item", listed first, and one of type "key". -/
def keysItemFirst : State :=
  { initGame with
    player := { container := ⟨true, [⟨"ключи", "item"⟩, ⟨"ключи", "key"⟩]⟩,
                location := corridorAddr } }

/-- The player of the shipped world in the corridor holding two things called
"ключи": one of type "key", listed first, and one of type "item". -/
def keysKeyFirst : State :=
  { initGame with
    player := { container := ⟨true, [⟨"ключи", "key"⟩, ⟨"ключи", "item"⟩]⟩,
                location := corridorAddr } }

/-! # Theorems -/

/-! ## Scanning the containers of a room -/

theorem findItem_eq_none (hit : Item → Bool) (l : List Item) (k : Nat) :
    findItem hit l k = none ↔ ∀ x ∈ l, hit x = false := by
  induction l generalizing k with
  | nil => simp [findItem]
  | cons a l ih =>
    unfold findItem
    by_cases h : hit a = true
    · simp [h]
    · simp [h, ih]

theorem findItem_eq_some (hit : Item → Bool) (l : List Item) (k i : Nat) (item : Item)
    (h : findItem hit l k = some (i, item)) :
    ∃ j, i = k + j ∧ l[j]? = some item ∧ hit item = true ∧
      ∀ j', j' < j → ∀ x, l[j']? = some x → hit x = false := by
  induction l generalizing k with
  | nil => simp [findItem] at h
  | cons a l ih =>
    unfold findItem at h
    by_cases ha : hit a = true
    · simp [ha] at h
      obtain ⟨rfl, rfl⟩ := h
      exact ⟨0, by simp, by simp, ha, by intro j' hj'; omega⟩
    · simp [ha] at h
      obtain ⟨j, hj, hget, hhit, hbefore⟩ := ih (k + 1) h
      refine ⟨j + 1, by omega, by simpa using hget, hhit, ?_⟩
      intro j' hj' x hx
      cases j' with
      | zero =>
        simp at hx
        subst hx
        simpa using ha
      | succ j' =>
        simp at hx
        exact hbefore j' (by omega) x hx

theorem findInContainers_eq_none (hit : Item → Bool) (cs : List RoomContainer) (k : Nat) :
    findInContainers hit cs k = none ↔ ∀ c ∈ cs, ∀ x ∈ c.inventory, hit x = false := by
  induction cs generalizing k with
  | nil => simp [findInContainers]
  | cons c cs ih =>
    unfold findInContainers
    cases hf : findItem hit c.inventory 0 with
    | none =>
      have h0 := (findItem_eq_none hit c.inventory 0).1 hf
      simp only [ih, List.mem_cons, forall_eq_or_imp]
      exact ⟨fun h => ⟨h0, h⟩, fun h => h.2⟩
    | some r =>
      obtain ⟨i, item⟩ := r
      obtain ⟨j, -, hget, hhit, -⟩ := findItem_eq_some hit c.inventory 0 i item hf
      simp only [List.mem_cons, forall_eq_or_imp, false_iff, not_and, reduceCtorEq]
      intro h0
      have := h0 item (List.getElem?_mem hget)
      simp [hhit] at this

theorem findInContainers_eq_some (hit : Item → Bool) (cs : List RoomContainer) (k ci ii : Nat)
    (item : Item) (h : findInContainers hit cs k = some (ci, ii, item)) :
    ∃ j c, ci = k + j ∧ cs[j]? = some c ∧ c.inventory[ii]? = some item ∧ hit item = true ∧
      (∀ j', j' < j → ∀ c', cs[j']? = some c' → ∀ x ∈ c'.inventory, hit x = false) ∧
      (∀ i', i' < ii → ∀ x, c.inventory[i']? = some x → hit x = false) := by
  induction cs generalizing k with
  | nil => simp [findInContainers] at h
  | cons c cs ih =>
    unfold findInContainers at h
    cases hf : findItem hit c.inventory 0 with
    | none =>
      rw [hf] at h
      simp only at h
      obtain ⟨j, c1, hj, hget, hitem, hhit, hbefore, hinner⟩ := ih (k + 1) h
      refine ⟨j + 1, c1, by omega, by simpa using hget, hitem, hhit, ?_, hinner⟩
      intro j' hj' c' hc'
      cases j' with
      | zero =>
        simp at hc'
        subst hc'
        exact (findItem_eq_none hit c.inventory 0).1 hf
      | succ j' =>
        simp at hc'
        exact hbefore j' (by omega) c' hc'
    | some r =>
      obtain ⟨i, item1⟩ := r
      rw [hf] at h
      simp only [Option.some.injEq, Prod.mk.injEq] at h
      obtain ⟨rfl, rfl, rfl⟩ := h
      obtain ⟨j, hj, hget, hhit, hbefore⟩ := findItem_eq_some hit c.inventory 0 i item1 hf
      have hji : j = i := by omega
      subst hji
      exact ⟨0, c, by simp, by simp, hget, hhit, by intro j' hj'; omega, hbefore⟩

theorem removeAt_of_getElem? (l : List Item) (i : Nat) (item : Item) (h : l[i]? = some item) :
    removeAt l i = some (l.eraseIdx i) := by
  have hlt : i < l.length := by
    by_contra hc
    rw [List.getElem?_eq_none (by omega)] at h
    cases h
  simp [removeAt, List.eraseIdx_eq_take_drop_succ]
  omega

theorem isTakeable_iff (n : String) (item : Item) :
    isTakeable n item = true ↔
      item.name = n ∧ (item.itemType = "item" ∨ item.itemType = "key") := by
  simp [isTakeable, and_comm]

theorem isWearable_iff (n : String) (item : Item) :
    isWearable n item = true ↔ item.name = n ∧ item.itemType = "playerContainer" := by
  simp [isWearable, and_comm]

theorem handleTakeCommand_found (s : State) (t n : String) (location : Room) (ci ii : Nat)
    (item : Item) (hon : s.player.container.isPuttedOn = true)
    (hloc : s.rooms[s.player.location]? = some location)
    (hfind : findInContainers (isTakeable n) location.containers 0 = some (ci, ii, item)) :
    ∃ c, location.containers[ci]? = some c ∧ c.inventory[ii]? = some item ∧
      handleTakeCommand s [t, n] =
        some ("предмет добавлен в инвентарь: " ++ n, afterTake s location ci ii c item) := by
  obtain ⟨j, c, hj, hc, hitem, hhit, -, -⟩ :=
    findInContainers_eq_some _ _ _ _ _ _ hfind
  have hci : j = ci := by omega
  subst hci
  refine ⟨c, hc, hitem, ?_⟩
  have hname : item.name = n := ((isTakeable_iff n item).1 hhit).1
  simp [handleTakeCommand, hon, hloc, hfind, removeFromContainer, hc,
    removeAt_of_getElem? _ _ _ hitem, afterTake, hname]

theorem handleWearCommand_found (s : State) (t n : String) (location : Room) (ci ii : Nat)
    (item : Item) (hloc : s.rooms[s.player.location]? = some location)
    (hfind : findInContainers (isWearable n) location.containers 0 = some (ci, ii, item)) :
    ∃ c, location.containers[ci]? = some c ∧ c.inventory[ii]? = some item ∧
      handleWearCommand s [t, n] = some ("вы надели: " ++ n, afterWear s location ci ii c) := by
  obtain ⟨j, c, hj, hc, hitem, hhit, -, -⟩ :=
    findInContainers_eq_some _ _ _ _ _ _ hfind
  have hci : j = ci := by omega
  subst hci
  refine ⟨c, hc, hitem, ?_⟩
  have hname : item.name = n := ((isWearable_iff n item).1 hhit).1
  simp [handleWearCommand, hloc, hfind, removeFromContainer, hc,
    removeAt_of_getElem? _ _ _ hitem, afterWear, hname]

theorem length_eraseIdx_add_one (l : List Item) (i : Nat) (item : Item)
    (h : l[i]? = some item) : (l.eraseIdx i).length + 1 = l.length := by
  have hlt : i < l.length := by
    by_contra hc
    rw [List.getElem?_eq_none (by omega)] at h
    cases h
  rw [List.length_eraseIdx]
  simp [hlt]
  omega

theorem getElem?_set_other {α : Type} (l : List α) (i j : Nat) (a : α) (h : j ≠ i) :
    (l.set i a)[j]? = l[j]? := by
  rw [List.getElem?_set]
  simp [Ne.symm h]

/-! ## C1: taking an item -/

/-- C1: on the tokens `["взять", n]`, `handleTakeCommand` changes the state if and
only if `isPuttedOn` is true and some container of the current room holds an item
named `n` of type "item" or "key"; in that case the first such item (containers in
order, items in order) is erased from its container and appended to the end of
the inventory, which grows by one while that container shrinks by one, every
other container and every other room stays as it was, and the answer is
"предмет добавлен в инвентарь: " followed by `n`. -/
theorem handleTakeCommand_spec (s : State) (n : String) :
    ((∃ answer s', handleTakeCommand s ["взять", n] = some (answer, s') ∧ s' ≠ s) ↔
      (s.player.container.isPuttedOn = true ∧
        ∃ location, s.rooms[s.player.location]? = some location ∧
          ∃ c ∈ location.containers, ∃ item ∈ c.inventory,
            item.name = n ∧ (item.itemType = "item" ∨ item.itemType = "key"))) ∧
    (∀ location, s.player.container.isPuttedOn = true →
      s.rooms[s.player.location]? = some location →
      (∃ c ∈ location.containers, ∃ item ∈ c.inventory,
        item.name = n ∧ (item.itemType = "item" ∨ item.itemType = "key")) →
      ∃ ci ii c item,
        location.containers[ci]? = some c ∧ c.inventory[ii]? = some item ∧
        (item.name = n ∧ (item.itemType = "item" ∨ item.itemType = "key")) ∧
        (∀ cj, cj < ci → ∀ c', location.containers[cj]? = some c' → ∀ x ∈ c'.inventory,
          ¬ (x.name = n ∧ (x.itemType = "item" ∨ x.itemType = "key"))) ∧
        (∀ ij, ij < ii → ∀ x, c.inventory[ij]? = some x →
          ¬ (x.name = n ∧ (x.itemType = "item" ∨ x.itemType = "key"))) ∧
        handleTakeCommand s ["взять", n] =
          some ("предмет добавлен в инвентарь: " ++ n, afterTake s location ci ii c item) ∧
        (afterTake s location ci ii c item).player.container.inventory =
          s.player.container.inventory ++ [item] ∧
        (afterTake s location ci ii c item).player.container.inventory.length =
          s.player.container.inventory.length + 1 ∧
        (c.inventory.eraseIdx ii).length + 1 = c.inventory.length ∧
        (∃ location', (afterTake s location ci ii c item).rooms[s.player.location]? =
            some location' ∧
          location'.containers[ci]? = some ⟨c.pfx, c.inventory.eraseIdx ii⟩ ∧
          (∀ cj, cj ≠ ci → location'.containers[cj]? = location.containers[cj]?) ∧
          location'.containers.length = location.containers.length ∧
          location'.name = location.name ∧ location'.description = location.description ∧
          location'.passages = location.passages ∧ location'.isLocked = location.isLocked ∧
          location'.goals = location.goals) ∧
        (∀ j, j ≠ s.player.location →
          (afterTake s location ci ii c item).rooms[j]? = s.rooms[j]?) ∧
        (afterTake s location ci ii c item).rooms.length = s.rooms.length) := by
  have key : ∀ location, s.player.container.isPuttedOn = true →
      s.rooms[s.player.location]? = some location →
      (∃ c ∈ location.containers, ∃ item ∈ c.inventory,
        item.name = n ∧ (item.itemType = "item" ∨ item.itemType = "key")) →
      ∃ ci ii item, findInContainers (isTakeable n) location.containers 0 =
        some (ci, ii, item) := by
    intro location _ _ hex
    cases hf : findInContainers (isTakeable n) location.containers 0 with
    | none =>
      obtain ⟨c, hc, item, hitem, hprop⟩ := hex
      have := (findInContainers_eq_none _ _ _).1 hf c hc item hitem
      rw [(isTakeable_iff n item).2 hprop] at this
      cases this
    | some r => exact ⟨r.1, r.2.1, r.2.2, rfl⟩
  constructor
  · constructor
    · rintro ⟨answer, s', hrun, hne⟩
      simp only [handleTakeCommand] at hrun
      by_cases hon : s.player.container.isPuttedOn = true
      · refine ⟨hon, ?_⟩
        simp only [hon, Bool.true_eq_false, if_false] at hrun
        cases hloc : s.rooms[s.player.location]? with
        | none => simp [hloc] at hrun
        | some location =>
          refine ⟨location, rfl, ?_⟩
          simp only [hloc] at hrun
          cases hf : findInContainers (isTakeable n) location.containers 0 with
          | none =>
            simp only [hf, Option.some.injEq, Prod.mk.injEq] at hrun
            exact absurd hrun.2.symm hne
          | some r =>
            obtain ⟨ci, ii, item⟩ := r
            obtain ⟨j, c, -, hc, hitem, hhit, -, -⟩ :=
              findInContainers_eq_some _ _ _ _ _ _ hf
            exact ⟨c, List.getElem?_mem hc, item, List.getElem?_mem hitem,
              (isTakeable_iff n item).1 hhit⟩
      · simp only [Bool.not_eq_true] at hon
        simp only [hon, if_true, Option.some.injEq, Prod.mk.injEq] at hrun
        exact absurd hrun.2.symm hne
    · rintro ⟨hon, location, hloc, hex⟩
      obtain ⟨ci, ii, item, hf⟩ := key location hon hloc hex
      obtain ⟨c, -, -, hrun⟩ := handleTakeCommand_found s "взять" n location ci ii item hon hloc hf
      refine ⟨_, _, hrun, ?_⟩
      intro heq
      have hlen := congrArg (fun st : State => st.player.container.inventory.length) heq
      simp [afterTake] at hlen
  · intro location hon hloc hex
    obtain ⟨ci, ii, item, hf⟩ := key location hon hloc hex
    obtain ⟨c, hc, hitem, hrun⟩ :=
      handleTakeCommand_found s "взять" n location ci ii item hon hloc hf
    obtain ⟨j, c1, hj, hc1, -, hhit, hbefore, hinner⟩ :=
      findInContainers_eq_some _ _ _ _ _ _ hf
    have hci : j = ci := by omega
    subst hci
    have hcc : c1 = c := by
      rw [hc1] at hc
      exact Option.some.inj hc
    subst hcc
    have hlocLt : s.player.location < s.rooms.length := by
      by_contra hc'
      rw [List.getElem?_eq_none (by omega)] at hloc
      cases hloc
    have hciLt : j < location.containers.length := by
      by_contra hc'
      rw [List.getElem?_eq_none (by omega)] at hc1
      cases hc1
    refine ⟨j, ii, c1, item, hc1, hitem, (isTakeable_iff n item).1 hhit, ?_, ?_, hrun, rfl,
      by simp [afterTake], length_eraseIdx_add_one _ _ _ hitem, ?_, ?_, by simp [afterTake]⟩
    · intro cj hcj c' hc' x hx hprop
      have := hbefore cj hcj c' hc' x hx
      rw [(isTakeable_iff n x).2 hprop] at this
      cases this
    · intro ij hij x hx hprop
      have := hinner ij hij x hx
      rw [(isTakeable_iff n x).2 hprop] at this
      cases this
    · refine ⟨{ location with
          containers := location.containers.set j ⟨c1.pfx, c1.inventory.eraseIdx ii⟩ },
        by simp [afterTake, hlocLt], by simp [hciLt], ?_, by simp, rfl, rfl, rfl, rfl, rfl⟩
      intro cj hcj
      exact getElem?_set_other _ _ _ _ hcj
    · intro j' hj'
      exact getElem?_set_other _ _ _ _ hj'

/-- C1 at concrete states: with the backpack on, the tea leaves the kitchen table
for the inventory; without it the state does not change. -/
theorem handleTakeCommand_spec_witness :
    handleTakeCommand wornInKitchen ["взять", "чай"] =
      some ("предмет добавлен в инвентарь: чай",
        afterTake wornInKitchen kitchen 0 0 ⟨"на столе", [⟨"чай", "item"⟩]⟩ ⟨"чай", "item"⟩) ∧
    (afterTake wornInKitchen kitchen 0 0 ⟨"на столе", [⟨"чай", "item"⟩]⟩
        ⟨"чай", "item"⟩).player.container.inventory = [⟨"чай", "item"⟩] ∧
    (afterTake wornInKitchen kitchen 0 0 ⟨"на столе", [⟨"чай", "item"⟩]⟩
        ⟨"чай", "item"⟩).rooms =
      [{ kitchen with containers := [⟨"на столе", []⟩] }, corridor, room, street] ∧
    (∃ answer s', handleTakeCommand wornInKitchen ["взять", "чай"] = some (answer, s') ∧
      s' ≠ wornInKitchen) ∧
    ¬ (∃ answer s', handleTakeCommand initGame ["взять", "чай"] = some (answer, s') ∧
      s' ≠ initGame) := by
  refine ⟨by decide, by decide, by decide,
    (handleTakeCommand_spec wornInKitchen "чай").1.2 (by decide), ?_⟩
  intro h
  have h2 := (handleTakeCommand_spec initGame "чай").1.1 h
  exact absurd h2.1 (by decide)

/-! ## C2: wearing an item -/

/-- C2: on the tokens `["надеть", n]`, in a state whose current room exists: if
some container of the room holds an item of type "playerContainer" named `n`,
the first such item is erased from its container, `isPuttedOn` is true
afterwards whatever it was before, the inventory, the location and every other
container and room are as before (the item is stored nowhere) and the answer is
"вы надели: " followed by `n`; otherwise the answer is "нечего надеть" and the
state is unchanged. -/
theorem handleWearCommand_spec (s : State) (n : String) (location : Room)
    (hloc : s.rooms[s.player.location]? = some location) :
    ((∃ c ∈ location.containers, ∃ item ∈ c.inventory,
        item.name = n ∧ item.itemType = "playerContainer") →
      ∃ ci ii c item,
        location.containers[ci]? = some c ∧ c.inventory[ii]? = some item ∧
        (item.name = n ∧ item.itemType = "playerContainer") ∧
        (∀ cj, cj < ci → ∀ c', location.containers[cj]? = some c' → ∀ x ∈ c'.inventory,
          ¬ (x.name = n ∧ x.itemType = "playerContainer")) ∧
        (∀ ij, ij < ii → ∀ x, c.inventory[ij]? = some x →
          ¬ (x.name = n ∧ x.itemType = "playerContainer")) ∧
        handleWearCommand s ["надеть", n] =
          some ("вы надели: " ++ n, afterWear s location ci ii c) ∧
        (afterWear s location ci ii c).player.container.isPuttedOn = true ∧
        (afterWear s location ci ii c).player.container.inventory =
          s.player.container.inventory ∧
        (afterWear s location ci ii c).player.location = s.player.location ∧
        (c.inventory.eraseIdx ii).length + 1 = c.inventory.length ∧
        (∃ location', (afterWear s location ci ii c).rooms[s.player.location]? =
            some location' ∧
          location'.containers[ci]? = some ⟨c.pfx, c.inventory.eraseIdx ii⟩ ∧
          (∀ cj, cj ≠ ci → location'.containers[cj]? = location.containers[cj]?) ∧
          location'.containers.length = location.containers.length ∧
          location'.name = location.name ∧ location'.description = location.description ∧
          location'.passages = location.passages ∧ location'.isLocked = location.isLocked ∧
          location'.goals = location.goals) ∧
        (∀ j, j ≠ s.player.location →
          (afterWear s location ci ii c).rooms[j]? = s.rooms[j]?) ∧
        (afterWear s location ci ii c).rooms.length = s.rooms.length) ∧
    ((¬ ∃ c ∈ location.containers, ∃ item ∈ c.inventory,
        item.name = n ∧ item.itemType = "playerContainer") →
      handleWearCommand s ["надеть", n] = some ("нечего надеть", s)) := by
  constructor
  · intro hex
    have key : ∃ ci ii item, findInContainers (isWearable n) location.containers 0 =
        some (ci, ii, item) := by
      cases hf : findInContainers (isWearable n) location.containers 0 with
      | none =>
        obtain ⟨c, hc, item, hitem, hprop⟩ := hex
        have := (findInContainers_eq_none _ _ _).1 hf c hc item hitem
        rw [(isWearable_iff n item).2 hprop] at this
        cases this
      | some r => exact ⟨r.1, r.2.1, r.2.2, rfl⟩
    obtain ⟨ci, ii, item, hf⟩ := key
    obtain ⟨c, hc, hitem, hrun⟩ := handleWearCommand_found s "надеть" n location ci ii item hloc hf
    obtain ⟨j, c1, hj, hc1, -, hhit, hbefore, hinner⟩ :=
      findInContainers_eq_some _ _ _ _ _ _ hf
    have hci : j = ci := by omega
    subst hci
    have hcc : c1 = c := by
      rw [hc1] at hc
      exact Option.some.inj hc
    subst hcc
    have hlocLt : s.player.location < s.rooms.length := by
      by_contra hc'
      rw [List.getElem?_eq_none (by omega)] at hloc
      cases hloc
    have hciLt : j < location.containers.length := by
      by_contra hc'
      rw [List.getElem?_eq_none (by omega)] at hc1
      cases hc1
    refine ⟨j, ii, c1, item, hc1, hitem, (isWearable_iff n item).1 hhit, ?_, ?_, hrun, rfl,
      rfl, rfl, length_eraseIdx_add_one _ _ _ hitem, ?_, ?_, by simp [afterWear]⟩
    · intro cj hcj c' hc' x hx hprop
      have := hbefore cj hcj c' hc' x hx
      rw [(isWearable_iff n x).2 hprop] at this
      cases this
    · intro ij hij x hx hprop
      have := hinner ij hij x hx
      rw [(isWearable_iff n x).2 hprop] at this
      cases this
    · refine ⟨{ location with
          containers := location.containers.set j ⟨c1.pfx, c1.inventory.eraseIdx ii⟩ },
        by simp [afterWear, hlocLt], by simp [hciLt], ?_, by simp, rfl, rfl, rfl, rfl, rfl⟩
      intro cj hcj
      exact getElem?_set_other _ _ _ _ hcj
    · intro j' hj'
      exact getElem?_set_other _ _ _ _ hj'
  · intro hno
    have hf : findInContainers (isWearable n) location.containers 0 = none := by
      rw [findInContainers_eq_none]
      intro c hc x hx
      cases hw : isWearable n x with
      | false => rfl
      | true => exact absurd ⟨c, hc, x, hx, (isWearable_iff n x).1 hw⟩ hno
    simp [handleWearCommand, hloc, hf]

/-- C2 at a concrete state: with `isPuttedOn` already true, wearing the backpack
still succeeds and removes it from the chair. -/
theorem handleWearCommand_spec_witness :
    wornInRoom.rooms[wornInRoom.player.location]? = some room ∧
    handleWearCommand wornInRoom ["надеть", "рюкзак"] =
      some ("вы надели: рюкзак", afterWear wornInRoom room 1 0 ⟨"на стуле", [⟨"рюкзак", "playerContainer"⟩]⟩) ∧
    (afterWear wornInRoom room 1 0 ⟨"на стуле", [⟨"рюкзак", "playerContainer"⟩]⟩).rooms[roomAddr]? =
      some { room with containers :=
        [⟨"на столе", [⟨"ключи", "key"⟩, ⟨"конспекты", "item"⟩]⟩, ⟨"на стуле", []⟩] } ∧
    handleWearCommand wornInRoom ["надеть", "шапка"] = some ("нечего надеть", wornInRoom) := by
  have h := handleWearCommand_spec wornInRoom "шапка" room (by decide)
  exact ⟨by decide, by decide, by decide, h.2 (by decide)⟩

/-! ## The answer of `lookAround` on entering a room -/

theorem stringsJoin_nil (sep : String) : stringsJoin [] sep = "" := rfl

theorem stringsJoin_one (a sep : String) : stringsJoin [a] sep = a := rfl

theorem stringsJoin_two (a b sep : String) : stringsJoin [a, b] sep = a ++ sep ++ b := rfl

theorem availablePassages_eq (rooms : List Room) (area : String) (ps : List Nat)
    (h : ∀ q ∈ ps, q < rooms.length) :
    availablePassages rooms area ps = some (exitLabels rooms area ps) := by
  induction ps with
  | nil => rfl
  | cons p ps ih =>
    have hp : p < rooms.length := h p (List.mem_cons_self _ _)
    have ih' := ih (fun q hq => h q (List.mem_cons_of_mem _ hq))
    simp [availablePassages, exitLabels, List.getElem?_eq_getElem hp, exitLabel] at ih' ⊢
    simp [ih', exitLabels, exitLabel]

theorem lookAnswer_go (r : Room) :
    stringsJoin (lookAnswer r true) ", " = r.description.goCase := by
  by_cases h : r.description.goCase = ""
  · simp [lookAnswer, h, stringsJoin_nil]
  · simp [lookAnswer, h, stringsJoin_one]

theorem lookAround_go (rooms : List Room) (player : Player) (r : Room)
    (hr : rooms[player.location]? = some r) (hps : ∀ q ∈ r.passages, q < rooms.length) :
    lookAround rooms player true = some (enterText rooms r) := by
  unfold lookAround
  rw [hr]
  by_cases hp : r.passages = []
  · simp [hp, enterText, lookAnswer_go, stringsJoin_one]
  · have hlen : r.passages.length > 0 := List.length_pos.2 hp
    simp only [hlen, if_true, availablePassages_eq rooms _ _ hps, lookAnswer_go, enterText, hp,
      if_false, List.singleton_append, stringsJoin_two]

/-! ## C3 and C4: the go handler -/

theorem goLoop_no_match (s : State) (d : String) (ps : List Nat)
    (h : ∀ q ∈ ps, ∃ r, s.rooms[q]? = some r ∧ r.isLocked = false ∧
      ¬ (d = r.name ∨ d = r.description.area)) :
    goLoop s d ps = some ("нет пути в " ++ d, s) := by
  induction ps with
  | nil => rfl
  | cons p ps ih =>
    obtain ⟨r, hr, hlock, hno⟩ := h p (List.mem_cons_self _ _)
    unfold goLoop
    simp only [hr, hlock, Bool.false_eq_true, if_false, hno]
    exact ih (fun q hq => h q (List.mem_cons_of_mem _ hq))

theorem goLoop_skip (s : State) (d : String) (pre rest : List Nat)
    (h : ∀ q ∈ pre, ∃ r, s.rooms[q]? = some r ∧ r.isLocked = false ∧
      ¬ (d = r.name ∨ d = r.description.area)) :
    goLoop s d (pre ++ rest) = goLoop s d rest := by
  induction pre with
  | nil => rfl
  | cons p pre ih =>
    obtain ⟨r, hr, hlock, hno⟩ := h p (List.mem_cons_self _ _)
    simp only [List.cons_append, goLoop, hr, hlock, Bool.false_eq_true, if_false, hno]
    exact ih (fun q hq => h q (List.mem_cons_of_mem _ hq))

/-- The go loop never changes anything but the player's location. -/
theorem goLoop_frame (s : State) (d : String) (ps : List Nat) (answer : String) (s' : State)
    (h : goLoop s d ps = some (answer, s')) :
    s' = s ∨ ∃ p ∈ ps, s' = moveTo s p := by
  induction ps with
  | nil =>
    simp only [goLoop, Option.some.injEq, Prod.mk.injEq] at h
    exact Or.inl h.2.symm
  | cons p ps ih =>
    unfold goLoop at h
    cases hr : s.rooms[p]? with
    | none => simp [hr] at h
    | some r =>
      simp only [hr] at h
      by_cases hlock : r.isLocked = true
      · simp only [hlock, if_true, Option.some.injEq, Prod.mk.injEq] at h
        exact Or.inl h.2.symm
      · simp only [hlock, Bool.false_eq_true, if_false] at h
        by_cases hm : d = r.name ∨ d = r.description.area
        · simp only [hm, if_true, Option.map_eq_some'] at h
          obtain ⟨a, -, ha⟩ := h
          simp only [Prod.mk.injEq] at ha
          exact Or.inr ⟨p, List.mem_cons_self _ _, ha.2.symm⟩
        · simp only [hm, if_false] at h
          rcases ih h with h1 | ⟨q, hq, h2⟩
          · exact Or.inl h1
          · exact Or.inr ⟨q, List.mem_cons_of_mem _ hq, h2⟩

/-- C3, as stated, fails in the corridor of the shipped world, reached from the
initial state by "идти коридор": no exit is called "нигде", yet the answer is the
locked message of the street, not "нет пути в нигде". -/
theorem handleGoCommand_no_match_counterexample :
    runCommands initGame ["идти коридор"] = some inCorridor ∧
    inCorridor.rooms[inCorridor.player.location]? = some corridor ∧
    (∀ p ∈ corridor.passages, ∀ r, inCorridor.rooms[p]? = some r →
      r.name ≠ "нигде" ∧ r.description.area ≠ "нигде") ∧
    handleGoCommand inCorridor ["идти", "нигде"] = some ("дверь закрыта", inCorridor) ∧
    handleGoCommand inCorridor ["идти", "нигде"] ≠
      some ("нет пути в " ++ "нигде", inCorridor) := by
  refine ⟨by decide, by decide, by decide, by decide, by decide⟩

/-- C3, amended: on the tokens `["идти", d]`, in a state whose current room and its
exits exist, when no exit of the current room has name `d` or area `d`: the state
(so the player's location) is unchanged, and when moreover no exit of the current
room is locked the answer is "нет пути в " followed by `d`. -/
theorem handleGoCommand_no_match (s : State) (d : String) (location : Room)
    (hloc : s.rooms[s.player.location]? = some location)
    (hvalid : ∀ p ∈ location.passages, p < s.rooms.length)
    (hno : ∀ p ∈ location.passages, ∀ r, s.rooms[p]? = some r →
      r.name ≠ d ∧ r.description.area ≠ d) :
    (∃ answer, handleGoCommand s ["идти", d] = some (answer, s)) ∧
    ((∀ p ∈ location.passages, ∀ r, s.rooms[p]? = some r → r.isLocked = false) →
      handleGoCommand s ["идти", d] = some ("нет пути в " ++ d, s)) := by
  have hnomatch : ∀ ps : List Nat, (∀ p ∈ ps, p ∈ location.passages) →
      ∃ answer, goLoop s d ps = some (answer, s) := by
    intro ps
    induction ps with
    | nil => intro _; exact ⟨_, rfl⟩
    | cons p ps ih =>
      intro hsub
      have hp := hsub p (List.mem_cons_self _ _)
      have hlt := hvalid p hp
      have hr : s.rooms[p]? = some s.rooms[p] := List.getElem?_eq_getElem hlt
      have hn := hno p hp _ hr
      unfold goLoop
      simp only [hr]
      by_cases hlock : (s.rooms[p]).isLocked = true
      · exact ⟨(s.rooms[p]).description.lockedMsg, by simp [hlock]⟩
      · have hm : ¬ (d = (s.rooms[p]).name ∨ d = (s.rooms[p]).description.area) := by
          rintro (h | h)
          · exact hn.1 h.symm
          · exact hn.2 h.symm
        simp only [hlock, Bool.false_eq_true, if_false, hm]
        exact ih (fun q hq => hsub q (List.mem_cons_of_mem _ hq))
  constructor
  · simpa [handleGoCommand, hloc] using hnomatch location.passages (fun p hp => hp)
  · intro hunlocked
    simp only [handleGoCommand, hloc]
    apply goLoop_no_match
    intro q hq
    have hlt := hvalid q hq
    have hr : s.rooms[q]? = some s.rooms[q] := List.getElem?_eq_getElem hlt
    refine ⟨_, hr, hunlocked q hq _ hr, ?_⟩
    rintro (h | h)
    · exact (hno q hq _ hr).1 h.symm
    · exact (hno q hq _ hr).2 h.symm

/-- C3 amended, at a concrete state: from the room `room`, whose only exit is the
unlocked corridor, there is no way to "нигде". -/
theorem handleGoCommand_no_match_witness :
    inRoom.rooms[inRoom.player.location]? = some room ∧
    (∃ answer, handleGoCommand inRoom ["идти", "нигде"] = some (answer, inRoom)) ∧
    handleGoCommand inRoom ["идти", "нигде"] = some ("нет пути в нигде", inRoom) := by
  have h := handleGoCommand_no_match inRoom "нигде" room (by decide) (by decide) (by decide)
  exact ⟨by decide, h.1, h.2 (by decide)⟩

/-- C4, as stated, fails in the corridor of the shipped world, reached from the
initial state by "идти коридор": the first exit (the kitchen) is not locked and an
exit is called "улица", yet the player is not moved there: the answer is the
locked message of the street and the state is unchanged. -/
theorem handleGoCommand_move_counterexample :
    runCommands initGame ["идти коридор"] = some inCorridor ∧
    inCorridor.rooms[inCorridor.player.location]? = some corridor ∧
    corridor.passages = [kitchenAddr, roomAddr, streetAddr] ∧
    inCorridor.rooms[kitchenAddr]? = some kitchen ∧ kitchen.isLocked = false ∧
    inCorridor.rooms[streetAddr]? = some street ∧ street.name = "улица" ∧
    handleGoCommand inCorridor ["идти", "улица"] = some ("дверь закрыта", inCorridor) ∧
    inCorridor.player.location ≠ streetAddr ∧
    handleGoCommand inCorridor ["идти", "улица"] ≠
      (lookAround inCorridor.rooms (moveTo inCorridor streetAddr).player true).map
        (fun answer => (answer, moveTo inCorridor streetAddr)) := by
  refine ⟨by decide, by decide, by decide, by decide, by decide, by decide, by decide,
    by decide, by decide, by decide⟩

/-- C4, amended: on the tokens `["идти", d]`, in a state whose rooms and exits
exist, when the exits of the current room are `pre ++ p :: post`, no exit of `pre`
has name `d` or area `d`, the exit `p` has, and neither `p` nor any exit of `pre`
is locked: `handleGoCommand` sets the player's location to `p` and changes nothing
else, and its answer is that of `lookAround(player, true)` in the new room, the
room's `goCase` text followed, when the room has exits, by ". " and its exits
clause. -/
theorem handleGoCommand_move (s : State) (d : String) (location target : Room)
    (pre post : List Nat) (p : Nat)
    (hloc : s.rooms[s.player.location]? = some location)
    (hsplit : location.passages = pre ++ p :: post)
    (hpre : ∀ q ∈ pre, ∃ r, s.rooms[q]? = some r ∧ r.isLocked = false ∧
      ¬ (d = r.name ∨ d = r.description.area))
    (htarget : s.rooms[p]? = some target)
    (hunlocked : target.isLocked = false)
    (hmatch : d = target.name ∨ d = target.description.area)
    (hvalid : ∀ q ∈ target.passages, q < s.rooms.length) :
    handleGoCommand s ["идти", d] = some (enterText s.rooms target, moveTo s p) ∧
    lookAround (moveTo s p).rooms (moveTo s p).player true = some (enterText s.rooms target) ∧
    (moveTo s p).player.location = p ∧
    (moveTo s p).player.container = s.player.container ∧
    (moveTo s p).rooms = s.rooms ∧ (moveTo s p).world = s.world := by
  have hlook : lookAround (moveTo s p).rooms (moveTo s p).player true =
      some (enterText s.rooms target) :=
    lookAround_go s.rooms (moveTo s p).player target htarget hvalid
  refine ⟨?_, hlook, rfl, rfl, rfl, rfl⟩
  simp only [handleGoCommand, hloc, hsplit]
  rw [goLoop_skip s d pre (p :: post) hpre]
  simp only [goLoop, htarget, hunlocked, Bool.false_eq_true, if_false, hmatch, if_true]
  simp only [moveTo] at hlook
  rw [hlook]
  rfl

/-- C4 amended, at a concrete state: from the corridor of the shipped world,
"идти комната" skips the kitchen and enters the room. -/
theorem handleGoCommand_move_witness :
    handleGoCommand inCorridor ["идти", "комната"] =
      some ("ты в своей комнате. можно пройти - коридор", inRoom) := by
  have h := handleGoCommand_move inCorridor "комната" corridor room [kitchenAddr] [streetAddr]
    roomAddr (by decide) (by decide) (by decide) (by decide) (by decide) (by decide)
    (by decide)
  have e1 : enterText inCorridor.rooms room = "ты в своей комнате. можно пройти - коридор" := by
    decide
  have e2 : moveTo inCorridor roomAddr = inRoom := by decide
  rw [e1, e2] at h
  exact h.1

theorem goLoop_cases (s : State) (d : String) (ps : List Nat) (answer : String) (s' : State)
    (h : goLoop s d ps = some (answer, s')) :
    (s' = s ∧ answer = "нет пути в " ++ d) ∨
    (∃ p ∈ ps, ∃ r, s.rooms[p]? = some r ∧ r.isLocked = false ∧
      (d = r.name ∨ d = r.description.area) ∧ s' = moveTo s p) ∨
    (∃ p ∈ ps, ∃ r, s.rooms[p]? = some r ∧ r.isLocked = true ∧
      answer = r.description.lockedMsg ∧ s' = s) := by
  induction ps with
  | nil =>
    simp only [goLoop, Option.some.injEq, Prod.mk.injEq] at h
    exact Or.inl ⟨h.2.symm, h.1.symm⟩
  | cons p ps ih =>
    unfold goLoop at h
    cases hr : s.rooms[p]? with
    | none => simp [hr] at h
    | some r =>
      simp only [hr] at h
      by_cases hlock : r.isLocked = true
      · simp only [hlock, if_true, Option.some.injEq, Prod.mk.injEq] at h
        exact Or.inr (Or.inr ⟨p, List.mem_cons_self _ _, r, hr, hlock, h.1.symm, h.2.symm⟩)
      · simp only [hlock, Bool.false_eq_true, if_false] at h
        by_cases hm : d = r.name ∨ d = r.description.area
        · simp only [hm, if_true, Option.map_eq_some'] at h
          obtain ⟨a, -, ha⟩ := h
          simp only [Prod.mk.injEq] at ha
          exact Or.inr (Or.inl ⟨p, List.mem_cons_self _ _, r, hr, by simpa using hlock, hm,
            ha.2.symm⟩)
        · simp only [hm, if_false] at h
          rcases ih h with h1 | ⟨q, hq, h2⟩ | ⟨q, hq, h3⟩
          · exact Or.inl h1
          · exact Or.inr (Or.inl ⟨q, List.mem_cons_of_mem _ hq, h2⟩)
          · exact Or.inr (Or.inr ⟨q, List.mem_cons_of_mem _ hq, h3⟩)

/-! ## C5 and C6: the apply handler -/

theorem exists_first_split (P : Nat → Prop) (ps : List Nat) (h : ∃ p ∈ ps, P p) :
    ∃ pre p post, ps = pre ++ p :: post ∧ P p ∧ ∀ q ∈ pre, ¬ P q := by
  classical
  induction ps with
  | nil => simp at h
  | cons a ps ih =>
    by_cases ha : P a
    · exact ⟨[], a, ps, rfl, ha, by simp⟩
    · have h' : ∃ p ∈ ps, P p := by
        obtain ⟨p, hp, hP⟩ := h
        rcases List.mem_cons.1 hp with rfl | hp'
        · exact absurd hP ha
        · exact ⟨p, hp', hP⟩
      obtain ⟨pre, p, post, hsplit, hP, hpre⟩ := ih h'
      refine ⟨a :: pre, p, post, by simp [hsplit], hP, ?_⟩
      intro q hq
      rcases List.mem_cons.1 hq with rfl | hq'
      · exact ha
      · exact hpre q hq'

theorem applyLoop_skip (s : State) (item : Item) (pre rest : List Nat)
    (h : ∀ q ∈ pre, ∃ r, s.rooms[q]? = some r ∧
      ¬ (r.description.keyType = item.itemType ∧ r.isLocked = true)) :
    applyLoop s item (pre ++ rest) = applyLoop s item rest := by
  induction pre with
  | nil => rfl
  | cons p pre ih =>
    obtain ⟨r, hr, hno⟩ := h p (List.mem_cons_self _ _)
    simp only [List.cons_append, applyLoop, hr, hno, if_false]
    exact ih (fun q hq => h q (List.mem_cons_of_mem _ hq))

theorem applyLoop_none (s : State) (item : Item) (ps : List Nat)
    (h : ∀ q ∈ ps, ∃ r, s.rooms[q]? = some r ∧
      ¬ (r.description.keyType = item.itemType ∧ r.isLocked = true)) :
    applyLoop s item ps = some ("не к чему применить", s) := by
  have := applyLoop_skip s item ps [] h
  rw [List.append_nil] at this
  rw [this]
  rfl

/-- C5, as stated, fails when two held items share the name: the inventory holds an
item named "ключи" of type "key" and the street, an exit of the corridor, is locked
with `keyType` "key", yet the scan stops at the first item named "ключи", of type
"item", and the answer is "не к чему применить" with the street still locked. -/
theorem handleApplyCommand_unlock_counterexample :
    (⟨"ключи", "key"⟩ : Item) ∈ keysItemFirst.player.container.inventory ∧
    keysItemFirst.rooms[keysItemFirst.player.location]? = some corridor ∧
    streetAddr ∈ corridor.passages ∧
    keysItemFirst.rooms[streetAddr]? = some street ∧
    street.isLocked = true ∧ street.description.keyType = "key" ∧
    handleApplyCommand keysItemFirst ["применить", "ключи", "ключи"] =
      some ("не к чему применить", keysItemFirst) ∧
    handleApplyCommand keysItemFirst ["применить", "ключи", "ключи"] ≠
      some (street.description.unlockedMsg, unlock keysItemFirst streetAddr street) := by
  refine ⟨by decide, by decide, by decide, by decide, by decide, by decide, by decide,
    by decide⟩

/-- C5, amended: on the tokens `["применить", n, t]`, in a state whose current room
and its exits exist, when the first item named `n` in the inventory is `item` (the
scan of the inventory stops there) and some exit of the current room is locked with
`keyType` equal to the type of `item`: `handleApplyCommand` sets `isLocked` to
false on the first such exit in list order, answers that exit's `unlockedMsg`,
and changes nothing else: the player (inventory, flag, location), the world map,
every other room, and every other field of the unlocked room are as before. -/
theorem handleApplyCommand_unlock (s : State) (n t : String) (item : Item) (location : Room)
    (hitem : s.player.container.inventory.find? (fun i => i.name = n) = some item)
    (hloc : s.rooms[s.player.location]? = some location)
    (hvalid : ∀ p ∈ location.passages, p < s.rooms.length)
    (hex : ∃ p ∈ location.passages, ∃ r, s.rooms[p]? = some r ∧
      r.description.keyType = item.itemType ∧ r.isLocked = true) :
    item ∈ s.player.container.inventory ∧ item.name = n ∧
    ∃ pre p post target,
      location.passages = pre ++ p :: post ∧
      s.rooms[p]? = some target ∧
      target.description.keyType = item.itemType ∧ target.isLocked = true ∧
      (∀ q ∈ pre, ∀ r, s.rooms[q]? = some r →
        ¬ (r.description.keyType = item.itemType ∧ r.isLocked = true)) ∧
      handleApplyCommand s ["применить", n, t] =
        some (target.description.unlockedMsg, unlock s p target) ∧
      (unlock s p target).player = s.player ∧
      (unlock s p target).world = s.world ∧
      (unlock s p target).rooms.length = s.rooms.length ∧
      (∀ j, j ≠ p → (unlock s p target).rooms[j]? = s.rooms[j]?) ∧
      ∃ target', (unlock s p target).rooms[p]? = some target' ∧
        target'.isLocked = false ∧ target'.name = target.name ∧
        target'.description = target.description ∧ target'.containers = target.containers ∧
        target'.passages = target.passages ∧ target'.goals = target.goals := by
  have hmem : item ∈ s.player.container.inventory := List.mem_of_find?_eq_some hitem
  have hname : item.name = n := by simpa using List.find?_some hitem
  refine ⟨hmem, hname, ?_⟩
  obtain ⟨pre, p, post, hsplit, ⟨target, htarget, hkey, hlocked⟩, hpre⟩ :=
    exists_first_split
      (fun p => ∃ r, s.rooms[p]? = some r ∧
        r.description.keyType = item.itemType ∧ r.isLocked = true)
      location.passages hex
  have hplt : p < s.rooms.length := hvalid p (by simp [hsplit])
  have hpre' : ∀ q ∈ pre, ∃ r, s.rooms[q]? = some r ∧
      ¬ (r.description.keyType = item.itemType ∧ r.isLocked = true) := by
    intro q hq
    have hqlt : q < s.rooms.length := hvalid q (by simp [hsplit, hq])
    refine ⟨s.rooms[q], List.getElem?_eq_getElem hqlt, ?_⟩
    intro hc
    exact hpre q hq ⟨s.rooms[q], List.getElem?_eq_getElem hqlt, hc⟩
  refine ⟨pre, p, post, target, hsplit, htarget, hkey, hlocked, ?_, ?_, rfl, rfl,
    by simp [unlock], ?_, ?_⟩
  · intro q hq r hr hc
    exact hpre q hq ⟨r, hr, hc⟩
  · simp only [handleApplyCommand, hitem, hloc, hsplit]
    rw [applyLoop_skip s item pre (p :: post) hpre']
    simp [applyLoop, htarget, hkey, hlocked, unlock]
  · intro j hj
    exact getElem?_set_other _ _ _ _ hj
  · exact ⟨{ target with isLocked := false }, by simp [unlock, hplt], rfl, rfl, rfl, rfl,
      rfl, rfl⟩

/-- C5 amended, at a concrete state: in the corridor of the shipped world with the
keys in the inventory, applying them unlocks the street, the third exit. -/
theorem handleApplyCommand_unlock_witness :
    (⟨"ключи", "key"⟩ : Item) ∈ packedInCorridor.player.container.inventory ∧
    handleApplyCommand packedInCorridor ["применить", "ключи", "ключи"] =
      some ("дверь открыта", unlock packedInCorridor streetAddr street) ∧
    (unlock packedInCorridor streetAddr street).rooms =
      [kitchen, corridor, room, { street with isLocked := false }] := by
  have h := handleApplyCommand_unlock packedInCorridor "ключи" "ключи" ⟨"ключи", "key"⟩
    corridor (by decide) (by decide) (by decide) (by decide)
  exact ⟨h.1, by decide, by decide⟩

/-- C6, as stated, fails when two held items share the name: the inventory holds an
item named "ключи" of type "item" and no exit of the corridor is both locked and of
`keyType` "item", yet the scan stops at the first item named "ключи", of type "key",
the answer is "дверь открыта" and the street is unlocked: the state changes. -/
theorem handleApplyCommand_miss_counterexample :
    (⟨"ключи", "item"⟩ : Item) ∈ keysKeyFirst.player.container.inventory ∧
    keysKeyFirst.rooms[keysKeyFirst.player.location]? = some corridor ∧
    (∀ p ∈ corridor.passages, ∀ r, keysKeyFirst.rooms[p]? = some r →
      ¬ (r.isLocked = true ∧ r.description.keyType = "item")) ∧
    handleApplyCommand keysKeyFirst ["применить", "ключи", "ключи"] =
      some ("дверь открыта", unlock keysKeyFirst streetAddr street) ∧
    unlock keysKeyFirst streetAddr street ≠ keysKeyFirst ∧
    handleApplyCommand keysKeyFirst ["применить", "ключи", "ключи"] ≠
      some ("не к чему применить", keysKeyFirst) := by
  refine ⟨by decide, by decide, by decide, by decide, by decide, by decide⟩

/-- C6, amended: on the tokens `["применить", n, t]`: when the inventory holds no item
named `n` the answer is "нет предмета в инвентаре - " followed by `n`; when the first
item named `n` in the inventory is `item` (the scan stops there), the current room
and its exits exist and no exit of the current room is both locked and of `keyType`
equal to the type of `item`, the answer is "не к чему применить"; the state is
unchanged in both cases. -/
theorem handleApplyCommand_miss (s : State) (n t : String) :
    ((∀ item ∈ s.player.container.inventory, item.name ≠ n) →
      handleApplyCommand s ["применить", n, t] =
        some ("нет предмета в инвентаре - " ++ n, s)) ∧
    (∀ item location,
      s.player.container.inventory.find? (fun i => i.name = n) = some item →
      s.rooms[s.player.location]? = some location →
      (∀ p ∈ location.passages, p < s.rooms.length) →
      (∀ p ∈ location.passages, ∀ r, s.rooms[p]? = some r →
        ¬ (r.isLocked = true ∧ r.description.keyType = item.itemType)) →
      handleApplyCommand s ["применить", n, t] = some ("не к чему применить", s)) := by
  constructor
  · intro hno
    have hfind : s.player.container.inventory.find? (fun i => i.name = n) = none := by
      rw [List.find?_eq_none]
      intro x hx
      simpa using hno x hx
    simp [handleApplyCommand, hfind]
  · intro item location hitem hloc hvalid hno
    simp only [handleApplyCommand, hitem, hloc]
    apply applyLoop_none
    intro q hq
    have hqlt : q < s.rooms.length := hvalid q hq
    refine ⟨s.rooms[q], List.getElem?_eq_getElem hqlt, ?_⟩
    intro hc
    exact hno q hq _ (List.getElem?_eq_getElem hqlt) ⟨hc.2, hc.1⟩

/-- C6 amended, at concrete states: in the kitchen of the shipped world nothing is
held, and in the room `room` the held keys find no locked exit. -/
theorem handleApplyCommand_miss_witness :
    handleApplyCommand initGame ["применить", "ключи", "дверь"] =
      some ("нет предмета в инвентаре - ключи", initGame) ∧
    handleApplyCommand { packedInCorridor with player :=
        { packedInCorridor.player with location := roomAddr } }
        ["применить", "ключи", "дверь"] =
      some ("не к чему применить", { packedInCorridor with player :=
        { packedInCorridor.player with location := roomAddr } }) := by
  refine ⟨(handleApplyCommand_miss initGame "ключи" "дверь").1 (by decide), ?_⟩
  exact (handleApplyCommand_miss _ "ключи" "дверь").2 ⟨"ключи", "key"⟩ room (by decide)
    (by decide) (by decide) (by decide)

/-! ## C7 and C8: the goal evaluation that opens `handleCommand` -/

theorem holds_iff (inv : List Item) (name : String) :
    holds inv name = true ↔ ∃ item ∈ inv, item.name = name := by
  simp [holds]

theorem set_of_getElem? {α : Type} (l : List α) (i : Nat) (a : α) (h : l[i]? = some a) :
    l.set i a = l := by
  induction l generalizing i with
  | nil => rfl
  | cons b l ih =>
    cases i with
    | zero =>
      simp at h
      simp [h]
    | succ i =>
      simp at h
      simp [ih i h]

theorem setAchieved_eq (s : State) (k i : Nat) (kr : Room) (g : Goal)
    (hk : s.rooms[k]? = some kr) (hg : kr.goals[i]? = some g) :
    setAchieved s k i = some (markAchieved s k i kr g) := by
  simp [setAchieved, hk, hg, markAchieved]

theorem markAchieved_twice (s : State) (k i : Nat) (kr : Room) (g : Goal) :
    markAchieved (markAchieved s k i kr g) k i
      { kr with goals := kr.goals.set i { g with isAchieved := true } }
      { g with isAchieved := true } = markAchieved s k i kr g := by
  simp [markAchieved, List.set_set]

theorem ite_true_eq_or (p : Prop) [Decidable p] (b : Bool) :
    (if p then true else b) = (decide p || b) := by
  by_cases h : p <;> simp [h]

theorem holds_cons (item : Item) (rest : List Item) (name : String) :
    holds (item :: rest) name = (decide (item.name = name) || holds rest name) := rfl

theorem collectLoop_eq (k : Nat) (inv : List Item) :
    ∀ (keys notes : Bool) (s : State) (kr : Room) (g0 : Goal),
      s.rooms[k]? = some kr → kr.goals[0]? = some g0 →
      collectLoop k inv keys notes s =
        some (if (!inv.isEmpty && (keys || holds inv "ключи")
            && (notes || holds inv "конспекты")) = true
          then markAchieved s k 0 kr g0 else s) := by
  induction inv with
  | nil => intro keys notes s kr g0 _ _; simp [collectLoop]
  | cons item rest ih =>
    intro keys notes s kr g0 hk hg
    have hklt : k < s.rooms.length := by
      by_contra hc
      rw [List.getElem?_eq_none (by omega)] at hk
      cases hk
    have hglt : 0 < kr.goals.length := by
      by_contra hc
      rw [List.getElem?_eq_none (by omega)] at hg
      cases hg
    simp only [collectLoop, ite_true_eq_or, holds_cons, List.isEmpty_cons, Bool.not_false,
      Bool.true_and]
    generalize decide (item.name = "ключи") = a
    generalize decide (item.name = "конспекты") = b
    by_cases hboth : ((a || keys) && (b || notes)) = true
    · have hk' : (markAchieved s k 0 kr g0).rooms[k]? =
          some { kr with goals := kr.goals.set 0 { g0 with isAchieved := true } } := by
        simp [markAchieved, hklt]
      have hg' : (kr.goals.set 0 { g0 with isAchieved := true })[0]? =
          some { g0 with isAchieved := true } := by
        simp [hglt]
      simp only [hboth, if_true, setAchieved_eq s k 0 kr g0 hk hg]
      rw [ih _ _ _ _ _ hk' hg', markAchieved_twice]
      simp only [ite_self]
      have hcond : ((keys || (a || holds rest "ключи"))
          && (notes || (b || holds rest "конспекты"))) = true := by
        revert hboth
        cases a <;> cases b <;> cases keys <;> cases notes <;> simp
      rw [if_pos hcond]
    · simp only [hboth, Bool.false_eq_true, if_false]
      rw [ih _ _ _ _ _ hk hg]
      congr 1
      have hcond : (!rest.isEmpty && ((a || keys) || holds rest "ключи") &&
            ((b || notes) || holds rest "конспекты")) =
          ((keys || (a || holds rest "ключи")) && (notes || (b || holds rest "конспекты"))) := by
        cases rest with
        | nil =>
          revert hboth
          cases a <;> cases b <;> cases keys <;> cases notes <;> simp [holds]
        | cons c rest' =>
          generalize holds (c :: rest') "ключи" = h1
          generalize holds (c :: rest') "конспекты" = h2
          cases a <;> cases b <;> cases keys <;> cases notes <;> cases h1 <;> cases h2 <;> rfl
      rw [hcond]

theorem univ_run_eq (s : State) (player : Player) (k : Nat) (kr location : Room)
    (g0 g1 : Goal) (hk : s.rooms[k]? = some kr) (hg0 : kr.goals[0]? = some g0)
    (hg1 : kr.goals[1]? = some g1) (hloc : s.rooms[player.location]? = some location) :
    GoalCheck.goToUniversity.run s player k =
      some (if g0.isAchieved = true ∧ location.name = "улица"
        then markAchieved s k 1 kr g1 else s) := by
  simp only [GoalCheck.run, hk, hg0, hloc]
  by_cases h0 : g0.isAchieved = true
  · by_cases hn : location.name = "улица"
    · simp [h0, hn, setAchieved_eq s k 1 kr g1 hk hg1]
    · simp [h0, hn]
  · simp [h0]

theorem collect_run_eq (s : State) (player : Player) (k : Nat) :
    GoalCheck.collectBackpack.run s player k =
      collectLoop k player.container.inventory false false s := rfl

theorem afterGoals_self (s : State) (k : Nat) (kr location : Room) (g0 g1 : Goal)
    (rest : List Goal) (hk : s.rooms[k]? = some kr) (hgoals : kr.goals = g0 :: g1 :: rest)
    (h0 : achieved0 s g0 = g0.isAchieved)
    (h1 : achieved1 s location g0 g1 = g1.isAchieved) :
    afterGoals s k kr location g0 g1 rest = s := by
  unfold afterGoals
  rw [h0, h1]
  have hkr : ({ kr with goals := { g0 with isAchieved := g0.isAchieved } ::
      { g1 with isAchieved := g1.isAchieved } :: rest } : Room) = kr := by
    cases kr
    simp only at hgoals
    simp [hgoals]
  rw [hkr, set_of_getElem? _ _ _ hk]

theorem evalGoals_eq (s : State) (k : Nat) (kr location : Room) (g0 g1 : Goal)
    (rest : List Goal) (hw : s.world.lookup "кухня" = some k) (hk : s.rooms[k]? = some kr)
    (hgoals : kr.goals = g0 :: g1 :: rest) (hc0 : g0.check = .collectBackpack)
    (hc1 : g1.check = .goToUniversity)
    (hloc : s.rooms[s.player.location]? = some location) :
    evalGoals s = some (afterGoals s k kr location g0 g1 rest) := by
  have hklt : k < s.rooms.length := by
    by_contra hc
    rw [List.getElem?_eq_none (by omega)] at hk
    cases hk
  have hg0 : kr.goals[0]? = some g0 := by simp [hgoals]
  have hg1 : kr.goals[1]? = some g1 := by simp [hgoals]
  have hself : s.rooms.set k kr = s.rooms := set_of_getElem? _ _ _ hk
  simp only [evalGoals, goalAddr, hw, hk, hgoals, List.length_cons, Nat.zero_lt_succ, if_true,
    Nat.lt_add_left_iff_pos, Nat.lt_add_one, checkGoals, List.getElem?_cons_zero, hc0,
    collect_run_eq]
  rw [collectLoop_eq k _ false false s kr g0 hk hg0]
  simp only [Bool.false_or]
  by_cases hb : (!s.player.container.inventory.isEmpty &&
      holds s.player.container.inventory "ключи" &&
      holds s.player.container.inventory "конспекты") = true
  · have hb' : (holds s.player.container.inventory "ключи" &&
        holds s.player.container.inventory "конспекты") = true := by
      simp only [Bool.and_eq_true] at hb ⊢
      exact ⟨hb.1.2, hb.2⟩
    have hka : (markAchieved s k 0 kr g0).rooms[k]? =
        some { kr with goals := { g0 with isAchieved := true } :: g1 :: rest } := by
      simp [markAchieved, hklt, hgoals]
    have hloca : ∃ la, (markAchieved s k 0 kr g0).rooms[s.player.location]? = some la ∧
        la.name = location.name := by
      by_cases e : s.player.location = k
      · refine ⟨_, by rw [e]; exact hka, ?_⟩
        rw [e, hk] at hloc
        simp [← Option.some.inj hloc]
      · refine ⟨location, ?_, rfl⟩
        rw [← hloc]
        exact getElem?_set_other _ _ _ _ e
    obtain ⟨la, hla, hlaname⟩ := hloca
    simp only [hb, if_true, hka, List.getElem?_cons_succ, List.getElem?_cons_zero, hc1]
    rw [univ_run_eq _ (markAchieved s k 0 kr g0).player k _ la { g0 with isAchieved := true } g1
      hka (by simp) (by simp) hla]
    by_cases hn : location.name = "улица"
    · simp [hlaname, hn, checkGoals, markAchieved, afterGoals, achieved0, achieved1, hb',
        List.set_set, hgoals]
    · simp [hlaname, hn, checkGoals, markAchieved, afterGoals, achieved0, achieved1, hb',
        List.set_set, hgoals]
  · have hb' : (holds s.player.container.inventory "ключи" &&
        holds s.player.container.inventory "конспекты") = false := by
      cases hinv : s.player.container.inventory with
      | nil => simp [holds]
      | cons a l =>
        rw [hinv] at hb
        simpa using hb
    simp only [hb, Bool.false_eq_true, if_false, hk, hgoals, List.getElem?_cons_succ,
      List.getElem?_cons_zero, hc1]
    rw [univ_run_eq s s.player k kr location g0 g1 hk hg0 hg1 hloc]
    by_cases h0 : g0.isAchieved = true
    · by_cases hn : location.name = "улица"
      · simp only [h0, hn, and_self, if_true, checkGoals, markAchieved, afterGoals, achieved0,
          achieved1, hb', hgoals, Bool.or_false, Bool.true_or, Bool.or_true, decide_True,
          Bool.and_self, List.set_cons_succ, List.set_cons_zero]
        rw [← h0]
      · rw [afterGoals_self s k kr location g0 g1 rest hk hgoals
          (by simp [achieved0, hb']) (by simp [achieved1, hn])]
        simp [h0, hn, checkGoals]
    · rw [afterGoals_self s k kr location g0 g1 rest hk hgoals
        (by simp [achieved0, hb']) (by simp [achieved1, achieved0, hb', h0])]
      simp [h0, checkGoals]

/-- C7: in a state whose world maps "кухня" to a room with the two shipped goal
functions in places 0 and 1 (and whose current room exists), the goal evaluation
that opens `handleCommand` returns a state in which kitchen goal 0 is achieved if
and only if it was achieved before or the inventory holds both an item named
"ключи" and an item named "конспекты", wherever they stand in the inventory. -/
theorem evalGoals_goal0 (s : State) (k : Nat) (kr location : Room) (g0 g1 : Goal)
    (rest : List Goal) (hw : s.world.lookup "кухня" = some k) (hk : s.rooms[k]? = some kr)
    (hgoals : kr.goals = g0 :: g1 :: rest) (hc0 : g0.check = .collectBackpack)
    (hc1 : g1.check = .goToUniversity)
    (hloc : s.rooms[s.player.location]? = some location) :
    ∃ s1 kr1 g0', evalGoals s = some s1 ∧
      (∀ line, handleCommand s line = dispatch s1 line) ∧
      s1.rooms[k]? = some kr1 ∧ kr1.goals[0]? = some g0' ∧ g0'.title = g0.title ∧
      (g0'.isAchieved = true ↔
        (g0.isAchieved = true ∨
          ((∃ item ∈ s.player.container.inventory, item.name = "ключи") ∧
            (∃ item ∈ s.player.container.inventory, item.name = "конспекты")))) := by
  have he := evalGoals_eq s k kr location g0 g1 rest hw hk hgoals hc0 hc1 hloc
  have hklt : k < s.rooms.length := by
    by_contra hc
    rw [List.getElem?_eq_none (by omega)] at hk
    cases hk
  refine ⟨_, { kr with goals := { g0 with isAchieved := achieved0 s g0 } ::
      { g1 with isAchieved := achieved1 s location g0 g1 } :: rest },
    { g0 with isAchieved := achieved0 s g0 }, he, ?_, ?_, ?_, rfl, ?_⟩
  · intro line
    simp [handleCommand, he]
  · simp only [afterGoals]
    rw [List.getElem?_set_self hklt]
  · simp
  · simp only [achieved0, Bool.or_eq_true, Bool.and_eq_true, holds_iff]

/-- C7 at a concrete state: the notes lie before the keys in the inventory and goal
0 becomes achieved. -/
theorem evalGoals_goal0_witness :
    ∃ s1 kr1 g0', evalGoals packedInCorridor = some s1 ∧
      s1.rooms[kitchenAddr]? = some kr1 ∧ kr1.goals[0]? = some g0' ∧
      g0'.title = "собрать рюкзак" ∧ g0'.isAchieved = true := by
  obtain ⟨s1, kr1, g0', he, -, hk, hg, ht, hiff⟩ :=
    evalGoals_goal0 packedInCorridor kitchenAddr kitchen corridor
      ⟨"собрать рюкзак", false, .collectBackpack⟩ ⟨"идти в универ", false, .goToUniversity⟩ []
      (by decide) (by decide) (by decide) (by decide) (by decide) (by decide)
  exact ⟨s1, kr1, g0', he, hk, hg, ht, hiff.2 (Or.inr (by decide))⟩

/-- C8: in a state whose world maps "кухня" to a room with the two shipped goal
functions in places 0 and 1 and whose current room exists, `handleCommand` on any
line first evaluates goal 0 and then goal 1 and dispatches on the state so
obtained; in that state kitchen goal 1 is achieved if and only if it was achieved
before or (goal 0 is achieved in that state and the player's current room, which
need not be the kitchen, is called "улица"). -/
theorem evalGoals_goal1 (s : State) (k : Nat) (kr location : Room) (g0 g1 : Goal)
    (rest : List Goal) (hw : s.world.lookup "кухня" = some k) (hk : s.rooms[k]? = some kr)
    (hgoals : kr.goals = g0 :: g1 :: rest) (hc0 : g0.check = .collectBackpack)
    (hc1 : g1.check = .goToUniversity)
    (hloc : s.rooms[s.player.location]? = some location) :
    ∃ s1 kr1 g0' g1', evalGoals s = some s1 ∧
      (∀ line, handleCommand s line = dispatch s1 line) ∧
      s1.rooms[k]? = some kr1 ∧ kr1.goals[0]? = some g0' ∧ kr1.goals[1]? = some g1' ∧
      g1'.title = g1.title ∧
      (g0'.isAchieved = true ↔
        (g0.isAchieved = true ∨
          ((∃ item ∈ s.player.container.inventory, item.name = "ключи") ∧
            (∃ item ∈ s.player.container.inventory, item.name = "конспекты")))) ∧
      (g1'.isAchieved = true ↔
        (g1.isAchieved = true ∨ (g0'.isAchieved = true ∧ location.name = "улица"))) := by
  have he := evalGoals_eq s k kr location g0 g1 rest hw hk hgoals hc0 hc1 hloc
  have hklt : k < s.rooms.length := by
    by_contra hc
    rw [List.getElem?_eq_none (by omega)] at hk
    cases hk
  refine ⟨_, { kr with goals := { g0 with isAchieved := achieved0 s g0 } ::
      { g1 with isAchieved := achieved1 s location g0 g1 } :: rest },
    { g0 with isAchieved := achieved0 s g0 },
    { g1 with isAchieved := achieved1 s location g0 g1 }, he, ?_, ?_, ?_, ?_, rfl, ?_, ?_⟩
  · intro line
    simp [handleCommand, he]
  · simp only [afterGoals]
    rw [List.getElem?_set_self hklt]
  · simp
  · simp
  · simp only [achieved0, Bool.or_eq_true, Bool.and_eq_true, holds_iff]
  · simp only [achieved1, Bool.or_eq_true, Bool.and_eq_true, decide_eq_true_eq]

/-- C8 at a concrete state: the player stands in the street, not in the kitchen,
with both things held; goal 0 and then goal 1 become achieved in one evaluation. -/
theorem evalGoals_goal1_witness :
    ∃ s1 kr1 g1', evalGoals packedOnStreet = some s1 ∧
      handleCommand packedOnStreet "летать" = dispatch s1 "летать" ∧
      s1.rooms[kitchenAddr]? = some kr1 ∧ kr1.goals[1]? = some g1' ∧
      g1'.title = "идти в универ" ∧ g1'.isAchieved = true := by
  obtain ⟨s1, kr1, g0', g1', he, hd, hk, -, hg, ht, h0, h1⟩ :=
    evalGoals_goal1 packedOnStreet kitchenAddr kitchen street
      ⟨"собрать рюкзак", false, .collectBackpack⟩ ⟨"идти в универ", false, .goToUniversity⟩ []
      (by decide) (by decide) (by decide) (by decide) (by decide) (by decide)
  exact ⟨s1, kr1, g1', he, hd "летать", hk, hg, ht,
    h1.2 (Or.inr ⟨h0.2 (Or.inr (by decide)), by decide⟩)⟩

/-! ## Later states: what no command undoes -/

theorem forall₂_self {α : Type} (R : α → α → Prop) (hrefl : ∀ a, R a a) (l : List α) :
    List.Forall₂ R l l :=
  List.forall₂_same.2 (fun a _ => hrefl a)

theorem forall₂_chain {α : Type} (R : α → α → Prop)
    (htrans : ∀ a b c, R a b → R b c → R a c) {l₁ l₂ l₃ : List α}
    (h₁ : List.Forall₂ R l₁ l₂) (h₂ : List.Forall₂ R l₂ l₃) : List.Forall₂ R l₁ l₃ := by
  induction h₁ generalizing l₃ with
  | nil =>
    cases h₂
    exact List.Forall₂.nil
  | cons hab _ ih =>
    cases h₂ with
    | cons hbc hrest => exact List.Forall₂.cons (htrans _ _ _ hab hbc) (ih hrest)

theorem forall₂_set {α : Type} (R : α → α → Prop) (hrefl : ∀ a, R a a) (l : List α) (i : Nat)
    (a x : α) (hi : l[i]? = some a) (hax : R a x) : List.Forall₂ R l (l.set i x) := by
  induction l generalizing i with
  | nil => exact List.Forall₂.nil
  | cons b l ih =>
    cases i with
    | zero =>
      simp only [List.getElem?_cons_zero, Option.some.injEq] at hi
      subst hi
      exact List.Forall₂.cons hax (forall₂_self R hrefl l)
    | succ i =>
      simp only [List.getElem?_cons_succ] at hi
      exact List.Forall₂.cons (hrefl b) (ih i hi)

theorem forall₂_getElem? {α : Type} (R : α → α → Prop) {l l' : List α}
    (h : List.Forall₂ R l l') (i : Nat) (a : α) (hi : l[i]? = some a) :
    ∃ b, l'[i]? = some b ∧ R a b := by
  induction h generalizing i with
  | nil => simp at hi
  | cons hab _ ih =>
    cases i with
    | zero =>
      simp only [List.getElem?_cons_zero, Option.some.injEq] at hi
      subst hi
      exact ⟨_, by simp, hab⟩
    | succ i =>
      simp only [List.getElem?_cons_succ] at hi
      simpa using ih i hi

theorem goalLe_refl (g : Goal) : GoalLe g g := ⟨rfl, rfl, fun h => h⟩

theorem goalLe_trans (a b c : Goal) (h₁ : GoalLe a b) (h₂ : GoalLe b c) : GoalLe a c :=
  ⟨h₂.1.trans h₁.1, h₂.2.1.trans h₁.2.1, fun h => h₂.2.2 (h₁.2.2 h)⟩

theorem roomLe_refl (r : Room) : RoomLe r r :=
  ⟨rfl, rfl, rfl, fun h => h, forall₂_self GoalLe goalLe_refl _⟩

theorem roomLe_trans (a b c : Room) (h₁ : RoomLe a b) (h₂ : RoomLe b c) : RoomLe a c :=
  ⟨h₂.1.trans h₁.1, h₂.2.1.trans h₁.2.1, h₂.2.2.1.trans h₁.2.2.1,
    fun h => h₂.2.2.2.1 (h₁.2.2.2.1 h), forall₂_chain GoalLe goalLe_trans h₁.2.2.2.2 h₂.2.2.2.2⟩

theorem stateLe_refl (s : State) : StateLe s s :=
  ⟨rfl, forall₂_self RoomLe roomLe_refl _⟩

theorem stateLe_trans {a b c : State} (h₁ : StateLe a b) (h₂ : StateLe b c) : StateLe a c :=
  ⟨h₂.1.trans h₁.1, forall₂_chain RoomLe roomLe_trans h₁.2 h₂.2⟩

/-- A state that differs only in the player is the same state later on. -/
theorem stateLe_of_rooms_eq {s s' : State} (hw : s'.world = s.world) (hr : s'.rooms = s.rooms) :
    StateLe s s' := by
  refine ⟨hw, ?_⟩
  rw [hr]
  exact forall₂_self RoomLe roomLe_refl _

theorem stateLe_set_room (s : State) (k : Nat) (r r' : Room) (hk : s.rooms[k]? = some r)
    (hle : RoomLe r r') (player : Player) :
    StateLe s { player := player, world := s.world, rooms := s.rooms.set k r' } :=
  ⟨rfl, forall₂_set RoomLe roomLe_refl _ _ _ _ hk hle⟩

theorem setAchieved_le (s : State) (k i : Nat) (s' : State) (h : setAchieved s k i = some s') :
    StateLe s s' := by
  unfold setAchieved at h
  cases hk : s.rooms[k]? with
  | none => simp [hk] at h
  | some r =>
    cases hg : r.goals[i]? with
    | none => simp [hk, hg] at h
    | some g =>
      simp only [hk, hg, Option.some.injEq] at h
      subst h
      exact stateLe_set_room s k r
        { r with goals := r.goals.set i { g with isAchieved := true } } hk
        ⟨rfl, rfl, rfl, fun h => h,
          forall₂_set GoalLe goalLe_refl _ _ _ _ hg ⟨rfl, rfl, fun _ => rfl⟩⟩ s.player

theorem collectLoop_le (k : Nat) (inv : List Item) :
    ∀ (keys notes : Bool) (s s' : State), collectLoop k inv keys notes s = some s' →
      StateLe s s' := by
  induction inv with
  | nil =>
    intro keys notes s s' h
    simp only [collectLoop, Option.some.injEq] at h
    subst h
    exact stateLe_refl s
  | cons item rest ih =>
    intro keys notes s s' h
    simp only [collectLoop, ite_true_eq_or] at h
    generalize (decide (item.name = "ключи") || keys) = a at h
    generalize (decide (item.name = "конспекты") || notes) = b at h
    by_cases hab : (a && b) = true
    · simp only [hab, if_true] at h
      cases hs : setAchieved s k 0 with
      | none => simp [hs] at h
      | some s1 =>
        simp only [hs] at h
        exact stateLe_trans (setAchieved_le s k 0 s1 hs) (ih _ _ _ _ h)
    · simp only [hab, Bool.false_eq_true, if_false] at h
      exact ih _ _ _ _ h

theorem run_le (c : GoalCheck) (s : State) (player : Player) (k : Nat) (s' : State)
    (h : c.run s player k = some s') : StateLe s s' := by
  cases c with
  | collectBackpack => exact collectLoop_le k _ _ _ _ _ h
  | goToUniversity =>
    simp only [GoalCheck.run] at h
    split at h
    · cases h
    · split at h
      · cases h
      · split at h
        · split at h
          · cases h
          · split at h
            · exact setAchieved_le _ _ _ _ h
            · simp only [Option.some.injEq] at h
              subst h
              exact stateLe_refl s
        · simp only [Option.some.injEq] at h
          subst h
          exact stateLe_refl s

theorem checkGoals_le (k : Nat) (goals : List GoalPtr) :
    ∀ (s s' : State), checkGoals k goals s = some s' → StateLe s s' := by
  induction goals with
  | nil =>
    intro s s' h
    simp only [checkGoals, Option.some.injEq] at h
    subst h
    exact stateLe_refl s
  | cons goal rest ih =>
    intro s s' h
    simp only [checkGoals] at h
    split at h
    · cases h
    · split at h
      · cases h
      · split at h
        · cases h
        · rename_i s1 hrun
          exact stateLe_trans (run_le _ _ _ _ _ hrun) (ih _ _ h)

theorem evalGoals_le (s s' : State) (h : evalGoals s = some s') : StateLe s s' := by
  simp only [evalGoals] at h
  split at h
  · exact checkGoals_le _ _ _ _ h
  · cases h

theorem removeFromContainer_le (s : State) (ci ii : Nat) (s' : State)
    (h : removeFromContainer s ci ii = some s') : StateLe s s' := by
  unfold removeFromContainer at h
  cases hloc : s.rooms[s.player.location]? with
  | none => simp [hloc] at h
  | some location =>
    cases hc : location.containers[ci]? with
    | none => simp [hloc, hc] at h
    | some c =>
      cases hr : removeAt c.inventory ii with
      | none => simp [hloc, hc, hr] at h
      | some inv =>
        simp only [hloc, hc, hr, Option.some.injEq] at h
        subst h
        exact stateLe_set_room s s.player.location location
          { location with containers := location.containers.set ci { c with inventory := inv } }
          hloc ⟨rfl, rfl, rfl, fun h => h, forall₂_self GoalLe goalLe_refl _⟩ s.player

theorem handleWearCommand_le (s : State) (parsedCommand : List String) (answer : String)
    (s' : State) (h : handleWearCommand s parsedCommand = some (answer, s')) : StateLe s s' := by
  unfold handleWearCommand at h
  split at h
  · split at h
    · cases h
    · split at h
      · simp only [Option.map_eq_some', Prod.mk.injEq] at h
        obtain ⟨s2, hrem, -, rfl⟩ := h
        have h1 := removeFromContainer_le _ _ _ _ hrem
        exact stateLe_trans (stateLe_of_rooms_eq rfl rfl) h1
      · simp only [Option.some.injEq, Prod.mk.injEq] at h
        rw [← h.2]
        exact stateLe_refl s
  · simp only [Option.some.injEq, Prod.mk.injEq] at h
    rw [← h.2]
    exact stateLe_refl s

theorem handleTakeCommand_le (s : State) (parsedCommand : List String) (answer : String)
    (s' : State) (h : handleTakeCommand s parsedCommand = some (answer, s')) : StateLe s s' := by
  unfold handleTakeCommand at h
  split at h
  · split at h
    · simp only [Option.some.injEq, Prod.mk.injEq] at h
      rw [← h.2]
      exact stateLe_refl s
    · split at h
      · cases h
      · split at h
        · simp only [Option.map_eq_some', Prod.mk.injEq] at h
          obtain ⟨s2, hrem, -, rfl⟩ := h
          have h1 := removeFromContainer_le _ _ _ _ hrem
          exact stateLe_trans (stateLe_of_rooms_eq rfl rfl) h1
        · simp only [Option.some.injEq, Prod.mk.injEq] at h
          rw [← h.2]
          exact stateLe_refl s
  · simp only [Option.some.injEq, Prod.mk.injEq] at h
    rw [← h.2]
    exact stateLe_refl s

theorem applyLoop_le (s : State) (item : Item) (ps : List Nat) (answer : String) (s' : State)
    (h : applyLoop s item ps = some (answer, s')) : StateLe s s' := by
  induction ps with
  | nil =>
    simp only [applyLoop, Option.some.injEq, Prod.mk.injEq] at h
    rw [← h.2]
    exact stateLe_refl s
  | cons p ps ih =>
    simp only [applyLoop] at h
    cases hp : s.rooms[p]? with
    | none => simp [hp] at h
    | some location =>
      simp only [hp] at h
      split at h
      · simp only [Option.some.injEq, Prod.mk.injEq] at h
        rw [← h.2]
        exact stateLe_set_room s p location { location with isLocked := false } hp
          ⟨rfl, rfl, rfl, fun _ => rfl, forall₂_self GoalLe goalLe_refl _⟩ s.player
      · exact ih h

theorem handleApplyCommand_le (s : State) (parsedCommand : List String) (answer : String)
    (s' : State) (h : handleApplyCommand s parsedCommand = some (answer, s')) :
    StateLe s s' := by
  unfold handleApplyCommand at h
  split at h
  · split at h
    · split at h
      · cases h
      · exact applyLoop_le _ _ _ _ _ h
    · simp only [Option.some.injEq, Prod.mk.injEq] at h
      rw [← h.2]
      exact stateLe_refl s
  · simp only [Option.some.injEq, Prod.mk.injEq] at h
    rw [← h.2]
    exact stateLe_refl s

theorem handleGoCommand_frame (s : State) (parsedCommand : List String) (answer : String)
    (s' : State) (h : handleGoCommand s parsedCommand = some (answer, s')) :
    s' = s ∨ ∃ location p, s.rooms[s.player.location]? = some location ∧
      p ∈ location.passages ∧ s' = moveTo s p := by
  unfold handleGoCommand at h
  split at h
  · split at h
    · cases h
    · rename_i location hloc
      rcases goLoop_frame _ _ _ _ _ h with h1 | ⟨p, hp, h2⟩
      · exact Or.inl h1
      · exact Or.inr ⟨location, p, hloc, hp, h2⟩
  · simp only [Option.some.injEq, Prod.mk.injEq] at h
    exact Or.inl h.2.symm

theorem handleGoCommand_le (s : State) (parsedCommand : List String) (answer : String)
    (s' : State) (h : handleGoCommand s parsedCommand = some (answer, s')) : StateLe s s' := by
  rcases handleGoCommand_frame _ _ _ _ h with h1 | ⟨_, p, -, -, h2⟩
  · rw [h1]
    exact stateLe_refl s
  · rw [h2]
    exact stateLe_of_rooms_eq rfl rfl

theorem handleLookCommand_eq (s : State) (answer : String) (s' : State)
    (h : handleLookCommand s = some (answer, s')) : s' = s := by
  simp only [handleLookCommand, Option.map_eq_some', Prod.mk.injEq] at h
  obtain ⟨_, -, -, rfl⟩ := h
  rfl

theorem dispatch_le (s : State) (command : String) (answer : String) (s' : State)
    (h : dispatch s command = some (answer, s')) : StateLe s s' := by
  simp only [dispatch] at h
  split at h
  · cases h
  · split at h
    · rw [handleLookCommand_eq _ _ _ h]
      exact stateLe_refl s
    · split at h
      · exact handleGoCommand_le _ _ _ _ h
      · split at h
        · exact handleWearCommand_le _ _ _ _ h
        · split at h
          · exact handleTakeCommand_le _ _ _ _ h
          · split at h
            · exact handleApplyCommand_le _ _ _ _ h
            · simp only [Option.some.injEq, Prod.mk.injEq] at h
              rw [← h.2]
              exact stateLe_refl s

theorem handleCommand_le (s : State) (command : String) (answer : String) (s' : State)
    (h : handleCommand s command = some (answer, s')) : StateLe s s' := by
  simp only [handleCommand] at h
  split at h
  · cases h
  · rename_i s1 he
    exact stateLe_trans (evalGoals_le _ _ he) (dispatch_le _ _ _ _ h)

theorem runCommands_le (commands : List String) :
    ∀ (s s' : State), runCommands s commands = some s' → StateLe s s' := by
  induction commands with
  | nil =>
    intro s s' h
    simp only [runCommands, Option.some.injEq] at h
    rw [← h]
    exact stateLe_refl s
  | cons command rest ih =>
    intro s s' h
    simp only [runCommands] at h
    split at h
    · cases h
    · rename_i answer s1 hc
      exact stateLe_trans (handleCommand_le _ _ _ _ hc) (ih _ _ h)

theorem stateLe_goal_kept {s s' : State} (h : StateLe s s') (i j : Nat) (r : Room) (g : Goal)
    (hr : s.rooms[i]? = some r) (hg : r.goals[j]? = some g) (ha : g.isAchieved = true) :
    ∃ r' g', s'.rooms[i]? = some r' ∧ r'.goals[j]? = some g' ∧ g'.title = g.title ∧
      g'.isAchieved = true := by
  obtain ⟨r', hr', hle⟩ := forall₂_getElem? RoomLe h.2 i r hr
  obtain ⟨g', hg', hgle⟩ := forall₂_getElem? GoalLe hle.2.2.2.2 j g hg
  exact ⟨r', g', hr', hg', hgle.1, hgle.2.2 ha⟩

theorem stateLe_unlocked_kept {s s' : State} (h : StateLe s s') (i : Nat) (r : Room)
    (hr : s.rooms[i]? = some r) (hu : r.isLocked = false) :
    ∃ r', s'.rooms[i]? = some r' ∧ r'.name = r.name ∧ r'.isLocked = false := by
  obtain ⟨r', hr', hle⟩ := forall₂_getElem? RoomLe h.2 i r hr
  exact ⟨r', hr', hle.1, hle.2.2.2.1 hu⟩

/-! ## C9: goal flags are monotone -/

/-- C9: goal flags are monotone. Whenever `handleCommand` returns from a state, every
goal of every room that was achieved before is still that goal and still achieved
after; hence the same holds after any sequence of command lines, from the initial
state or from any state reached from it. -/
theorem goal_flags_monotone (s : State) :
    (∀ line answer s', handleCommand s line = some (answer, s') →
      ∀ (i j : Nat) (r : Room) (g : Goal), s.rooms[i]? = some r → r.goals[j]? = some g → g.isAchieved = true →
        ∃ r' g', s'.rooms[i]? = some r' ∧ r'.goals[j]? = some g' ∧ g'.title = g.title ∧
          g'.isAchieved = true) ∧
    (∀ commands s', runCommands s commands = some s' →
      ∀ (i j : Nat) (r : Room) (g : Goal), s.rooms[i]? = some r → r.goals[j]? = some g → g.isAchieved = true →
        ∃ r' g', s'.rooms[i]? = some r' ∧ r'.goals[j]? = some g' ∧ g'.title = g.title ∧
          g'.isAchieved = true) := by
  constructor
  · intro line answer s' h i j r g hr hg ha
    exact stateLe_goal_kept (handleCommand_le s line answer s' h) i j r g hr hg ha
  · intro commands s' h i j r g hr hg ha
    exact stateLe_goal_kept (runCommands_le commands s s' h) i j r g hr hg ha

/-- C9 at a concrete state: goal 0 is achieved although the inventory is empty, and
it is still achieved after three more commands. -/
theorem goal_flags_monotone_witness :
    ∃ s' r' g', runCommands goal0Done ["осмотреться", "идти коридор", "летать"] = some s' ∧
      s'.rooms[kitchenAddr]? = some r' ∧ r'.goals[0]? = some g' ∧
      g'.title = "собрать рюкзак" ∧ g'.isAchieved = true := by
  have hrun : runCommands goal0Done ["осмотреться", "идти коридор", "летать"] =
      some { goal0Done with player := { goal0Done.player with location := corridorAddr } } := by
    decide
  obtain ⟨r', g', h1, h2, h3, h4⟩ := (goal_flags_monotone goal0Done).2 _ _ hrun kitchenAddr 0
    { kitchen with goals := [⟨"собрать рюкзак", true, .collectBackpack⟩,
                             ⟨"идти в универ", false, .goToUniversity⟩] }
    ⟨"собрать рюкзак", true, .collectBackpack⟩ (by decide) (by decide) rfl
  exact ⟨_, r', g', hrun, h1, h2, h3, h4⟩

/-! ## C10: unlocking is permanent -/

/-- C10: unlocking is permanent. A room that is unlocked is still unlocked whenever
`handleCommand` returns, hence after any sequence of command lines; and in any
state so reached a go command, from whatever room, either finds no exit, or moves
the player, or answers the locked message of some other room that is locked at
that moment: the lock guard never stops at the unlocked room. -/
theorem unlocked_stays_unlocked (s : State) (i : Nat) (r : Room)
    (hr : s.rooms[i]? = some r) (hu : r.isLocked = false) :
    (∀ line answer s', handleCommand s line = some (answer, s') →
      ∃ r', s'.rooms[i]? = some r' ∧ r'.name = r.name ∧ r'.isLocked = false) ∧
    (∀ commands s', runCommands s commands = some s' →
      (∃ r', s'.rooms[i]? = some r' ∧ r'.name = r.name ∧ r'.isLocked = false) ∧
      ∀ d answer s'', handleGoCommand s' ["идти", d] = some (answer, s'') →
        (s'' = s' ∧ answer = "нет пути в " ++ d) ∨
        (∃ p q, s'.rooms[p]? = some q ∧ q.isLocked = false ∧
          (d = q.name ∨ d = q.description.area) ∧ s'' = moveTo s' p) ∨
        (∃ p q, p ≠ i ∧ s'.rooms[p]? = some q ∧ q.isLocked = true ∧
          answer = q.description.lockedMsg ∧ s'' = s')) := by
  constructor
  · intro line answer s' h
    exact stateLe_unlocked_kept (handleCommand_le s line answer s' h) i r hr hu
  · intro commands s' h
    have hkept := stateLe_unlocked_kept (runCommands_le commands s s' h) i r hr hu
    refine ⟨hkept, ?_⟩
    obtain ⟨r', hr', -, hu'⟩ := hkept
    intro d answer s'' hgo
    simp only [handleGoCommand] at hgo
    cases hloc : s'.rooms[s'.player.location]? with
    | none => simp [hloc] at hgo
    | some location =>
      simp only [hloc] at hgo
      rcases goLoop_cases _ _ _ _ _ hgo with h1 | ⟨p, -, q, hq, h2⟩ | ⟨p, -, q, hq, hl, h3⟩
      · exact Or.inl h1
      · exact Or.inr (Or.inl ⟨p, q, hq, h2⟩)
      · refine Or.inr (Or.inr ⟨p, q, ?_, hq, hl, h3⟩)
        rintro rfl
        rw [hr'] at hq
        rw [Option.some.inj hq] at hu'
        rw [hu'] at hl
        cases hl

/-- C10 at a concrete state: once the keys have unlocked the street, the street is
still unlocked after a walk to the kitchen and back, and "идти улица" moves the
player there. -/
theorem unlocked_stays_unlocked_witness :
    streetOpened.rooms[streetAddr]? = some { street with isLocked := false } ∧
    (∃ s', runCommands streetOpened ["идти кухня", "идти коридор"] = some s' ∧
      (∃ r', s'.rooms[streetAddr]? = some r' ∧ r'.name = "улица" ∧ r'.isLocked = false) ∧
      handleGoCommand s' ["идти", "улица"] =
        some ("на улице весна. можно пройти - домой", moveTo s' streetAddr)) := by
  have hrun : runCommands streetOpened ["идти кухня", "идти коридор"] =
      some (afterGoals streetOpened kitchenAddr kitchen corridor
        ⟨"собрать рюкзак", false, .collectBackpack⟩ ⟨"идти в универ", false, .goToUniversity⟩
        []) := by
    decide
  have h := (unlocked_stays_unlocked streetOpened streetAddr { street with isLocked := false }
    (by decide) rfl).2 _ _ hrun
  exact ⟨by decide,
    afterGoals streetOpened kitchenAddr kitchen corridor
      ⟨"собрать рюкзак", false, .collectBackpack⟩ ⟨"идти в универ", false, .goToUniversity⟩ [],
    hrun, h.1, by decide⟩

/-! ## C19: a locked first exit answers every go command -/

/-- C19: on the tokens `["идти", d]`, in a state whose current room exists and whose
first exit exists and is locked, `handleGoCommand` answers that first exit's
`lockedMsg` and leaves the state, so the player's location, unchanged, whatever
`d` is and whatever the later exits are. -/
theorem handleGoCommand_first_locked (s : State) (d : String) (location first : Room)
    (p : Nat) (rest : List Nat) (hloc : s.rooms[s.player.location]? = some location)
    (hps : location.passages = p :: rest) (hp : s.rooms[p]? = some first)
    (hl : first.isLocked = true) :
    handleGoCommand s ["идти", d] = some (first.description.lockedMsg, s) := by
  simp [handleGoCommand, hloc, hps, goLoop, hp, hl]

/-- C19 at a concrete state: the street is listed first and locked, the kitchen is
listed after it and unlocked, and "идти кухня" answers "дверь закрыта". -/
theorem handleGoCommand_first_locked_witness :
    (∃ r, streetFirst.rooms[kitchenAddr]? = some r ∧ r.name = "кухня" ∧ r.isLocked = false) ∧
    handleGoCommand streetFirst ["идти", "кухня"] = some ("дверь закрыта", streetFirst) :=
  ⟨⟨kitchen, by decide, by decide, by decide⟩,
    handleGoCommand_first_locked streetFirst "кухня"
      { corridor with passages := [streetAddr, kitchenAddr, roomAddr] } street streetAddr
      [kitchenAddr, roomAddr] (by decide) (by decide) (by decide) (by decide)⟩

/-! ## C20: the shipped game can be won -/

/-- C20: a sequence of nine command lines leads from the state built by `initGame`
to a state in which both kitchen goals are achieved and the player is in the room
named "улица". -/
theorem game_winnable :
    ∃ commands s, runCommands initGame commands = some s ∧
      (∃ kr, s.world.lookup "кухня" = some kitchenAddr ∧ s.rooms[kitchenAddr]? = some kr ∧
        kr.goals.map (fun g => (g.title, g.isAchieved)) =
          [("собрать рюкзак", true), ("идти в универ", true)]) ∧
      locationName s = some "улица" := by
  exact ⟨["идти коридор", "идти комната", "надеть рюкзак", "взять ключи", "взять конспекты",
    "идти коридор", "применить ключи дверь", "идти улица", "осмотреться"], wonGame,
    by decide, ⟨wonKitchen, by decide, by decide, by decide⟩, by decide⟩

/-! ## C17: the end-to-end scenario -/

/-- C17, as stated, fails: back in the kitchen with the backpack on, "взять ключи" and
"взять конспекты" answer "нет такого", because the keys and the notes lie in the
room and the kitchen table holds only the tea. -/
theorem scenario_counterexample :
    (runAnswers initGame scenarioKitchen).map Prod.fst =
      some ["некуда класть",
            "ничего интересного. можно пройти - кухня, комната, улица",
            "ты в своей комнате. можно пройти - коридор",
            "вы надели: рюкзак",
            "ничего интересного. можно пройти - кухня, комната, улица",
            "кухня, ничего интересного. можно пройти - коридор",
            "нет такого",
            "нет такого"] ∧
    kitchen.containers = [⟨"на столе", [⟨"чай", "item"⟩]⟩] ∧
    (runCommands initGame scenarioKitchen).bind (fun s => goalFlags s kitchenAddr) =
      some [false, false] := by
  refine ⟨by decide, by decide, by decide⟩

/-- C17, amended: from the initial state "взять ключи" answers "некуда класть"; after
"идти коридор" and "идти комната", "надеть рюкзак" answers "вы надели: рюкзак";
there, in the room, "взять ключи" and "взять конспекты" each answer "предмет
добавлен в инвентарь: …" and no goal is achieved yet; the next command, "идти
коридор", finds goal 1 achieved; "применить ключи ключи" answers "дверь открыта"
and unlocks the street, locked until then; "идти улица" moves the player to the
street with goal 2 still open; the next command finds goal 2 achieved. -/
theorem scenario_amended :
    (runAnswers initGame scenarioTaken).map Prod.fst =
      some ["некуда класть",
            "ничего интересного. можно пройти - кухня, комната, улица",
            "ты в своей комнате. можно пройти - коридор",
            "вы надели: рюкзак",
            "предмет добавлен в инвентарь: ключи",
            "предмет добавлен в инвентарь: конспекты"] ∧
    (runCommands initGame scenarioTaken).bind (fun s => goalFlags s kitchenAddr) =
      some [false, false] ∧
    (runAnswers initGame (scenarioTaken ++ ["идти коридор"])).map Prod.fst =
      (runAnswers initGame scenarioTaken).map
        (fun r => r.1 ++ ["ничего интересного. можно пройти - кухня, комната, улица"]) ∧
    (runCommands initGame (scenarioTaken ++ ["идти коридор"])).bind
        (fun s => goalFlags s kitchenAddr) = some [true, false] ∧
    (runCommands initGame (scenarioTaken ++ ["идти коридор"])).bind
        (fun s => lockFlag s streetAddr) = some true ∧
    (runAnswers initGame (scenarioTaken ++ ["идти коридор", "применить ключи ключи"])).map
        (fun r => r.1.getLast?) = some (some "дверь открыта") ∧
    (runCommands initGame (scenarioTaken ++ ["идти коридор", "применить ключи ключи"])).bind
        (fun s => lockFlag s streetAddr) = some false ∧
    (runAnswers initGame
        (scenarioTaken ++ ["идти коридор", "применить ключи ключи", "идти улица"])).map
        (fun r => r.1.getLast?) = some (some "на улице весна. можно пройти - домой") ∧
    (runCommands initGame
        (scenarioTaken ++ ["идти коридор", "применить ключи ключи", "идти улица"])).bind
        locationName = some "улица" ∧
    (runCommands initGame
        (scenarioTaken ++ ["идти коридор", "применить ключи ключи", "идти улица"])).bind
        (fun s => goalFlags s kitchenAddr) = some [true, false] ∧
    (runCommands initGame
        (scenarioTaken ++ ["идти коридор", "применить ключи ключи", "идти улица",
          "осмотреться"])).bind
        (fun s => goalFlags s kitchenAddr) = some [true, true] := by
  refine ⟨by decide, by decide, by decide, by decide, by decide, by decide, by decide,
    by decide, by decide, by decide, by decide⟩

/-! ## The answer of `lookAround` in both modes -/

theorem exitLabels_length (rooms : List Room) (area : String) (ps : List Nat)
    (h : ∀ q ∈ ps, q < rooms.length) : (exitLabels rooms area ps).length = ps.length := by
  induction ps with
  | nil => rfl
  | cons p ps ih =>
    have hp : p < rooms.length := h p (List.mem_cons_self _ _)
    have ih' := ih (fun q hq => h q (List.mem_cons_of_mem _ hq))
    simp only [exitLabels] at ih' ⊢
    simp [List.filterMap_cons, List.getElem?_eq_getElem hp, ih']

theorem exitLabels_getElem? (rooms : List Room) (area : String) (ps : List Nat)
    (h : ∀ q ∈ ps, q < rooms.length) (i q : Nat) (r : Room) (hq : ps[i]? = some q)
    (hr : rooms[q]? = some r) : (exitLabels rooms area ps)[i]? = some (exitLabel area r) := by
  induction ps generalizing i with
  | nil => simp at hq
  | cons p ps ih =>
    have hp : p < rooms.length := h p (List.mem_cons_self _ _)
    have ih' := ih (fun q hq => h q (List.mem_cons_of_mem _ hq))
    cases i with
    | zero =>
      simp only [List.getElem?_cons_zero, Option.some.injEq] at hq
      subst hq
      simp [exitLabels, List.filterMap_cons, hr]
    | succ i =>
      simp only [List.getElem?_cons_succ] at hq
      have := ih' i hq
      simp only [exitLabels] at this ⊢
      simp [List.filterMap_cons, List.getElem?_eq_getElem hp, this]

theorem exitsClause_eq (rooms : List Room) (location : Room) :
    stringsJoin ["можно пройти",
      stringsJoin (exitLabels rooms location.description.area location.passages) ", "] " - " =
      exitsClause rooms location := by
  rw [stringsJoin_two, exitsClause, stringsJoin]
  have h : "можно пройти" ++ " - " = "можно пройти - " := by decide
  rw [← h]

theorem lookAround_eq (rooms : List Room) (player : Player) (location : Room)
    (isGoCase : Bool) (hr : rooms[player.location]? = some location)
    (hps : ∀ q ∈ location.passages, q < rooms.length) :
    lookAround rooms player isGoCase =
      some (if location.passages = [] then stringsJoin (lookAnswer location isGoCase) ", "
        else stringsJoin (lookAnswer location isGoCase) ", " ++ ". " ++
          exitsClause rooms location) := by
  unfold lookAround
  rw [hr]
  by_cases hp : location.passages = []
  · simp [hp, stringsJoin_one]
  · have hlen : location.passages.length > 0 := List.length_pos.2 hp
    simp only [hlen, if_true, availablePassages_eq rooms _ _ hps, hp, if_false,
      List.singleton_append, exitsClause_eq]
    rw [stringsJoin_two]

theorem inventoryMsg_eq (cs : List RoomContainer) :
    inventoryMsg cs = (cs.filter (fun c => !c.inventory.isEmpty)).map containerEntry := by
  induction cs with
  | nil => rfl
  | cons c cs ih =>
    cases hinv : c.inventory with
    | nil => simp [inventoryMsg, hinv, ih, List.filter_cons]
    | cons a l =>
      have h2 : ∀ x : String, ": ".intercalate [c.pfx, x] = c.pfx ++ ": " ++ x := fun _ => rfl
      simp [inventoryMsg, hinv, ih, List.filter_cons, containerEntry, stringsJoin, h2]

theorem emptyContainers_iff (cs : List RoomContainer) :
    emptyContainers cs = true ↔ ∀ c ∈ cs, c.inventory = [] := by
  simp [emptyContainers, List.length_eq_zero]

theorem pendingGoals_eq (goals : List Goal) :
    pendingGoals goals =
      (goals.filter (fun g => g.isAchieved = false)).map (fun g => g.title) := by
  have h : (fun goal : Goal => !goal.isAchieved) =
      (fun g : Goal => decide (g.isAchieved = false)) := by
    funext g
    cases g.isAchieved <;> rfl
  simp only [pendingGoals, h]

theorem lookAnswer_look (location : Room) :
    lookAnswer location false =
      (if location.description.lookCase = "" then [] else [location.description.lookCase]) ++
      (if location.containers = [] then [] else [containerClause location]) ++
      (if location.goals = [] then [] else [goalClause location]) := by
  have hc : stringsJoin (inventoryMsg location.containers) ", " =
      ", ".intercalate
        ((location.containers.filter (fun c => !c.inventory.isEmpty)).map containerEntry) := by
    rw [inventoryMsg_eq, stringsJoin]
  have hg : stringsJoin [location.description.goalPrefix,
      stringsJoin (pendingGoals location.goals) " и "] " " = goalClause location := by
    rw [stringsJoin_two, pendingGoals_eq, stringsJoin, goalClause]
  have hcl : (if emptyContainers location.containers = true then location.description.emptyMsg
      else stringsJoin (inventoryMsg location.containers) ", ") = containerClause location := by
    unfold containerClause
    by_cases he : ∀ c ∈ location.containers, c.inventory = []
    · rw [if_pos he, if_pos ((emptyContainers_iff _).2 he)]
    · rw [if_neg he, if_neg (fun h => he ((emptyContainers_iff _).1 h)), hc]
  unfold lookAnswer
  rw [hg]
  by_cases h1 : location.description.lookCase = "" <;>
    by_cases h2 : location.containers = [] <;>
    by_cases h3 : location.goals = [] <;>
    by_cases h4 : emptyContainers location.containers = true <;>
    simp [h1, h2, h3, h4, List.length_pos, ← hcl]

/-! ## C14: the look response when the sentence is empty -/

/-- C14 at the corridor of the shipped world, reached from the initial state by
"идти коридор": the description sentence is empty, the room has exits, and the look
response keeps the separator in front of the exits clause: it is
". можно пройти - кухня, комната, улица", not the exits clause alone. -/
theorem look_corridor_keeps_separator :
    runCommands initGame ["идти коридор"] = some inCorridor ∧
    inCorridor.rooms[inCorridor.player.location]? = some corridor ∧
    stringsJoin (lookAnswer corridor false) ", " = "" ∧
    exitsClause inCorridor.rooms corridor = "можно пройти - кухня, комната, улица" ∧
    lookAround inCorridor.rooms inCorridor.player false =
      some (". " ++ exitsClause inCorridor.rooms corridor) ∧
    handleCommand inCorridor "осмотреться" =
      some (". можно пройти - кухня, комната, улица", inCorridor) ∧
    lookAround inCorridor.rooms inCorridor.player false ≠
      some (exitsClause inCorridor.rooms corridor) := by
  refine ⟨by decide, by decide, by decide, by decide, by decide, by decide, by decide⟩

/-! ## C15: the description sentence of the look response -/

/-- C15: in a state whose current room and its exits exist, the part of
`lookAround(player, false)` before the exits clause is the sentence of the
specification: the ", "-join of the room's `lookCase` text when it is not empty
(never the `goCase` text), then, when the room has a container, the entries
"<prefix>: <item names joined by ", ">" of the non-empty containers joined by ", "
or the room's `emptyMsg` when every container is empty, then, when the room has a
goal, the `goalPrefix`, a space and the titles of the goals not yet achieved joined
by " и ". -/
theorem lookAround_sentence (rooms : List Room) (player : Player) (location : Room)
    (hr : rooms[player.location]? = some location)
    (hps : ∀ q ∈ location.passages, q < rooms.length) :
    stringsJoin (lookAnswer location false) ", " = lookSentence location ∧
    lookAround rooms player false =
      some (if location.passages = [] then lookSentence location
        else lookSentence location ++ ". " ++ exitsClause rooms location) := by
  have hs : stringsJoin (lookAnswer location false) ", " = lookSentence location := by
    rw [lookAnswer_look, stringsJoin, lookSentence]
  refine ⟨hs, ?_⟩
  rw [lookAround_eq rooms player location false hr hps, hs]

/-- C15 at the initial kitchen: the sentence is "ты находишься на кухне, на столе: чай,
надо собрать рюкзак и идти в универ". -/
theorem lookAround_sentence_witness :
    lookSentence kitchen =
      "ты находишься на кухне, на столе: чай, надо собрать рюкзак и идти в универ" ∧
    stringsJoin (lookAnswer kitchen false) ", " =
      "ты находишься на кухне, на столе: чай, надо собрать рюкзак и идти в универ" ∧
    lookAround initGame.rooms initGame.player false =
      some ("ты находишься на кухне, на столе: чай, надо собрать рюкзак и идти в универ" ++
        ". " ++ "можно пройти - коридор") := by
  have h := lookAround_sentence initGame.rooms initGame.player kitchen (by decide) (by decide)
  have e : lookSentence kitchen =
      "ты находишься на кухне, на столе: чай, надо собрать рюкзак и идти в универ" := by
    decide
  refine ⟨e, ?_, by decide⟩
  rw [h.1, e]

/-! ## C16: the exits clause -/

/-- C16: in a state whose current room and its exits exist, in look mode and in go
mode alike: when the room has an exit, the answer of `lookAround` is the sentence,
". ", and the exits clause "можно пройти - " followed by the ", "-join of one label
per exit in exit-list order, the label of an exit being the destination's name when
the destination's area equals the current room's area and the destination's area
otherwise; when the room has no exit the answer is the sentence alone. -/
theorem lookAround_exits (rooms : List Room) (player : Player) (location : Room)
    (isGoCase : Bool) (hr : rooms[player.location]? = some location)
    (hps : ∀ q ∈ location.passages, q < rooms.length) :
    (location.passages ≠ [] →
      lookAround rooms player isGoCase =
        some (stringsJoin (lookAnswer location isGoCase) ", " ++ ". " ++
          exitsClause rooms location)) ∧
    (location.passages = [] →
      lookAround rooms player isGoCase =
        some (stringsJoin (lookAnswer location isGoCase) ", ")) ∧
    exitsClause rooms location = "можно пройти - " ++
      ", ".intercalate (exitLabels rooms location.description.area location.passages) ∧
    (exitLabels rooms location.description.area location.passages).length =
      location.passages.length ∧
    (∀ (i q : Nat) (r : Room), location.passages[i]? = some q → rooms[q]? = some r →
      (exitLabels rooms location.description.area location.passages)[i]? =
        some (if r.description.area = location.description.area then r.name
          else r.description.area)) := by
  have h := lookAround_eq rooms player location isGoCase hr hps
  refine ⟨?_, ?_, rfl, exitLabels_length _ _ _ hps, ?_⟩
  · intro hne
    rw [h, if_neg hne]
  · intro he
    rw [h, if_pos he]
  · intro i q r hq hrq
    exact exitLabels_getElem? rooms _ _ hps i q r hq hrq

/-- C16 at the shipped corridor and street: the clauses are
"можно пройти - кухня, комната, улица" and "можно пройти - домой", in go mode as in
look mode. -/
theorem lookAround_exits_witness :
    exitsClause inCorridor.rooms corridor = "можно пройти - кухня, комната, улица" ∧
    exitsClause inStreet.rooms street = "можно пройти - домой" ∧
    lookAround inCorridor.rooms inCorridor.player true =
      some ("ничего интересного" ++ ". " ++ "можно пройти - кухня, комната, улица") ∧
    lookAround inStreet.rooms inStreet.player true =
      some ("на улице весна" ++ ". " ++ "можно пройти - домой") ∧
    lookAround inStreet.rooms inStreet.player false =
      some ("" ++ ". " ++ "можно пройти - домой") := by
  have hc := (lookAround_exits inCorridor.rooms inCorridor.player corridor true (by decide)
    (by decide)).1 (by decide)
  have hs := (lookAround_exits inStreet.rooms inStreet.player street true (by decide)
    (by decide)).1 (by decide)
  have hl := (lookAround_exits inStreet.rooms inStreet.player street false (by decide)
    (by decide)).1 (by decide)
  have e1 : exitsClause inCorridor.rooms corridor = "можно пройти - кухня, комната, улица" := by
    decide
  have e2 : exitsClause inStreet.rooms street = "можно пройти - домой" := by decide
  have a1 : stringsJoin (lookAnswer corridor true) ", " = "ничего интересного" := by decide
  have a2 : stringsJoin (lookAnswer street true) ", " = "на улице весна" := by decide
  have a3 : stringsJoin (lookAnswer street false) ", " = "" := by decide
  rw [e1, a1] at hc
  rw [e2, a2] at hs
  rw [e2, a3] at hl
  exact ⟨e1, e2, hc, hs, hl⟩

/-! ## The goal evaluation changes nothing but goal flags -/

theorem roomGoalsOnly_refl (r : Room) : RoomGoalsOnly r r :=
  ⟨rfl, rfl, rfl, rfl, rfl, forall₂_self GoalLe goalLe_refl _⟩

theorem roomGoalsOnly_trans (a b c : Room) (h₁ : RoomGoalsOnly a b) (h₂ : RoomGoalsOnly b c) :
    RoomGoalsOnly a c :=
  ⟨h₂.1.trans h₁.1, h₂.2.1.trans h₁.2.1, h₂.2.2.1.trans h₁.2.2.1,
    h₂.2.2.2.1.trans h₁.2.2.2.1, h₂.2.2.2.2.1.trans h₁.2.2.2.2.1,
    forall₂_chain GoalLe goalLe_trans h₁.2.2.2.2.2 h₂.2.2.2.2.2⟩

theorem goalsOnly_refl (s : State) : GoalsOnly s s :=
  ⟨rfl, rfl, forall₂_self RoomGoalsOnly roomGoalsOnly_refl _⟩

theorem goalsOnly_trans {a b c : State} (h₁ : GoalsOnly a b) (h₂ : GoalsOnly b c) :
    GoalsOnly a c :=
  ⟨h₂.1.trans h₁.1, h₂.2.1.trans h₁.2.1,
    forall₂_chain RoomGoalsOnly roomGoalsOnly_trans h₁.2.2 h₂.2.2⟩

theorem goalsOnly_le {s s' : State} (h : GoalsOnly s s') : StateLe s s' :=
  ⟨h.2.1, h.2.2.imp (fun _ _ hr =>
    ⟨hr.1, hr.2.1, hr.2.2.2.1, fun hu => hr.2.2.2.2.1.trans hu, hr.2.2.2.2.2⟩)⟩

theorem setAchieved_goalsOnly (s : State) (k i : Nat) (s' : State)
    (h : setAchieved s k i = some s') : GoalsOnly s s' := by
  unfold setAchieved at h
  cases hk : s.rooms[k]? with
  | none => simp [hk] at h
  | some r =>
    cases hg : r.goals[i]? with
    | none => simp [hk, hg] at h
    | some g =>
      simp only [hk, hg, Option.some.injEq] at h
      subst h
      refine ⟨rfl, rfl, ?_⟩
      exact forall₂_set RoomGoalsOnly roomGoalsOnly_refl _ _ r
        { r with goals := r.goals.set i { g with isAchieved := true } } hk
        ⟨rfl, rfl, rfl, rfl, rfl,
          forall₂_set GoalLe goalLe_refl _ _ _ _ hg ⟨rfl, rfl, fun _ => rfl⟩⟩

theorem collectLoop_goalsOnly (k : Nat) (inv : List Item) :
    ∀ (keys notes : Bool) (s s' : State), collectLoop k inv keys notes s = some s' →
      GoalsOnly s s' := by
  induction inv with
  | nil =>
    intro keys notes s s' h
    simp only [collectLoop, Option.some.injEq] at h
    subst h
    exact goalsOnly_refl s
  | cons item rest ih =>
    intro keys notes s s' h
    simp only [collectLoop, ite_true_eq_or] at h
    generalize (decide (item.name = "ключи") || keys) = a at h
    generalize (decide (item.name = "конспекты") || notes) = b at h
    by_cases hab : (a && b) = true
    · simp only [hab, if_true] at h
      cases hs : setAchieved s k 0 with
      | none => simp [hs] at h
      | some s1 =>
        simp only [hs] at h
        exact goalsOnly_trans (setAchieved_goalsOnly s k 0 s1 hs) (ih _ _ _ _ h)
    · simp only [hab, Bool.false_eq_true, if_false] at h
      exact ih _ _ _ _ h

theorem run_goalsOnly (c : GoalCheck) (s : State) (player : Player) (k : Nat) (s' : State)
    (h : c.run s player k = some s') : GoalsOnly s s' := by
  cases c with
  | collectBackpack => exact collectLoop_goalsOnly k _ _ _ _ _ h
  | goToUniversity =>
    simp only [GoalCheck.run] at h
    split at h
    · cases h
    · split at h
      · cases h
      · split at h
        · split at h
          · cases h
          · split at h
            · exact setAchieved_goalsOnly _ _ _ _ h
            · simp only [Option.some.injEq] at h
              subst h
              exact goalsOnly_refl s
        · simp only [Option.some.injEq] at h
          subst h
          exact goalsOnly_refl s

theorem checkGoals_goalsOnly (k : Nat) (goals : List GoalPtr) :
    ∀ (s s' : State), checkGoals k goals s = some s' → GoalsOnly s s' := by
  induction goals with
  | nil =>
    intro s s' h
    simp only [checkGoals, Option.some.injEq] at h
    subst h
    exact goalsOnly_refl s
  | cons goal rest ih =>
    intro s s' h
    simp only [checkGoals] at h
    split at h
    · cases h
    · split at h
      · cases h
      · split at h
        · cases h
        · rename_i s1 hrun
          exact goalsOnly_trans (run_goalsOnly _ _ _ _ _ hrun) (ih _ _ h)

theorem evalGoals_goalsOnly (s s' : State) (h : evalGoals s = some s') : GoalsOnly s s' := by
  simp only [evalGoals] at h
  split at h
  · exact checkGoals_goalsOnly _ _ _ _ h
  · cases h

theorem forall₂_getElem?_rev {α : Type} (R : α → α → Prop) {l l' : List α}
    (h : List.Forall₂ R l l') (i : Nat) (b : α) (hi : l'[i]? = some b) :
    ∃ a, l[i]? = some a ∧ R a b := by
  induction h generalizing i with
  | nil => simp at hi
  | cons hab _ ih =>
    cases i with
    | zero =>
      simp only [List.getElem?_cons_zero, Option.some.injEq] at hi
      subst hi
      exact ⟨_, by simp, hab⟩
    | succ i =>
      simp only [List.getElem?_cons_succ] at hi
      simpa using ih i hi

theorem goalsOnly_room {s s' : State} (h : GoalsOnly s s') (i : Nat) (r : Room)
    (hr : s.rooms[i]? = some r) : ∃ r', s'.rooms[i]? = some r' ∧ RoomGoalsOnly r r' :=
  forall₂_getElem? RoomGoalsOnly h.2.2 i r hr

/-! ## Well-formed states: every command returns -/

theorem lt_of_getElem? {α : Type} {l : List α} {i : Nat} {a : α} (h : l[i]? = some a) :
    i < l.length := by
  by_contra hc
  rw [List.getElem?_eq_none (by omega)] at h
  cases h

theorem wf_initGame : WF initGame :=
  ⟨by decide, by decide, kitchenAddr, by decide, kitchen, by decide, by decide⟩

theorem wf_of_le {s s' : State} (hwf : WF s) (hle : StateLe s s')
    (hloc : s'.player.location < s'.rooms.length) : WF s' := by
  obtain ⟨-, hps, k, hw, kr, hk, hlen⟩ := hwf
  have hlenEq : s.rooms.length = s'.rooms.length := hle.2.length_eq
  refine ⟨hloc, ?_, k, by rw [hle.1]; exact hw, ?_⟩
  · intro r' hr' p hp
    obtain ⟨i, hi⟩ := List.mem_iff_getElem?.1 hr'
    obtain ⟨r, hr, hrle⟩ := forall₂_getElem?_rev RoomLe hle.2 i r' hi
    rw [hrle.2.2.1] at hp
    rw [← hlenEq]
    exact hps r (List.getElem?_mem hr) p hp
  · obtain ⟨kr', hkr', hkle⟩ := forall₂_getElem? RoomLe hle.2 k kr hk
    refine ⟨kr', hkr', ?_⟩
    rw [← hkle.2.2.2.2.length_eq]
    exact hlen

theorem run_total (c : GoalCheck) (s : State) (k : Nat) (kr : Room)
    (hk : s.rooms[k]? = some kr) (hlen : 2 ≤ kr.goals.length)
    (hloc : s.player.location < s.rooms.length) : ∃ s', c.run s s.player k = some s' := by
  have h0 : kr.goals[0]? = some kr.goals[0] := List.getElem?_eq_getElem (by omega)
  have h1 : kr.goals[1]? = some kr.goals[1] := List.getElem?_eq_getElem (by omega)
  have hl : s.rooms[s.player.location]? = some s.rooms[s.player.location] :=
    List.getElem?_eq_getElem hloc
  cases c with
  | collectBackpack =>
    exact ⟨_, (collect_run_eq s s.player k).trans (collectLoop_eq k _ false false s kr _ hk h0)⟩
  | goToUniversity => exact ⟨_, univ_run_eq s s.player k kr _ _ _ hk h0 h1 hl⟩

theorem evalGoals_total (s : State) (hwf : WF s) : ∃ s1, evalGoals s = some s1 := by
  obtain ⟨hloc, -, k, hw, kr, hk, hlen⟩ := hwf
  have h0 : kr.goals[0]? = some kr.goals[0] := List.getElem?_eq_getElem (by omega)
  obtain ⟨sa, hsa⟩ := run_total (kr.goals[0]).check s k kr hk hlen hloc
  have hga := run_goalsOnly _ _ _ _ _ hsa
  obtain ⟨kra, hkra, hkrle⟩ := goalsOnly_room hga k kr hk
  have hlena : 2 ≤ kra.goals.length := by
    rw [← hkrle.2.2.2.2.2.length_eq]
    exact hlen
  have hloca : sa.player.location < sa.rooms.length := by
    rw [hga.1, ← hga.2.2.length_eq]
    exact hloc
  have h1a : kra.goals[1]? = some kra.goals[1] := List.getElem?_eq_getElem (by omega)
  obtain ⟨sb, hsb⟩ := run_total (kra.goals[1]).check sa k kra hkra hlena hloca
  refine ⟨sb, ?_⟩
  have hlt0 : 0 < kr.goals.length := by omega
  have hlt1 : 1 < kr.goals.length := by omega
  simp only [evalGoals, goalAddr, hw, hk, hlt0, hlt1, if_true, checkGoals, h0, hsa, hkra, h1a,
    hsb]

theorem evalGoals_wf (s s1 : State) (hwf : WF s) (h : evalGoals s = some s1) : WF s1 := by
  have hg := evalGoals_goalsOnly s s1 h
  refine wf_of_le hwf (goalsOnly_le hg) ?_
  rw [hg.1, ← hg.2.2.length_eq]
  exact hwf.1

theorem splitChars_ne_nil (cs : List Char) : splitChars cs ≠ [] := by
  induction cs with
  | nil => simp [splitChars]
  | cons c cs ih =>
    unfold splitChars
    by_cases hc : c = ' '
    · simp [hc]
    · simp only [hc, if_false]
      cases h : splitChars cs with
      | nil => simp
      | cons w ws => simp

theorem stringsSplit_ne_nil (line : String) : stringsSplit line ≠ [] := by
  simp [stringsSplit, splitChars_ne_nil]

theorem lookAround_total (rooms : List Room) (player : Player) (isGoCase : Bool)
    (hloc : player.location < rooms.length)
    (hall : ∀ r ∈ rooms, ∀ p ∈ r.passages, p < rooms.length) :
    ∃ answer, lookAround rooms player isGoCase = some answer := by
  have hr : rooms[player.location]? = some rooms[player.location] :=
    List.getElem?_eq_getElem hloc
  exact ⟨_, lookAround_eq rooms player _ isGoCase hr
    (hall _ (List.getElem?_mem hr))⟩

theorem goLoop_total (s : State) (d : String) (ps : List Nat)
    (hps : ∀ p ∈ ps, p < s.rooms.length)
    (hall : ∀ r ∈ s.rooms, ∀ p ∈ r.passages, p < s.rooms.length) :
    ∃ answer s', goLoop s d ps = some (answer, s') := by
  induction ps with
  | nil => exact ⟨_, _, rfl⟩
  | cons p ps ih =>
    have hp : p < s.rooms.length := hps p (List.mem_cons_self _ _)
    have hr : s.rooms[p]? = some s.rooms[p] := List.getElem?_eq_getElem hp
    simp only [goLoop, hr]
    by_cases hl : (s.rooms[p]).isLocked = true
    · simp [hl]
    · simp only [hl, Bool.false_eq_true, if_false]
      by_cases hm : d = (s.rooms[p]).name ∨ d = (s.rooms[p]).description.area
      · obtain ⟨answer, ha⟩ := lookAround_total s.rooms { s.player with location := p } true
          hp hall
        simp [hm, ha]
      · simp only [hm, if_false]
        exact ih (fun q hq => hps q (List.mem_cons_of_mem _ hq))

theorem handleGoCommand_total (s : State) (hwf : WF s) (l : List String) :
    ∃ answer s', handleGoCommand s l = some (answer, s') := by
  obtain ⟨location, hr⟩ : ∃ location, s.rooms[s.player.location]? = some location :=
    ⟨_, List.getElem?_eq_getElem hwf.1⟩
  rcases l with _ | ⟨a, _ | ⟨b, _ | ⟨c, rest⟩⟩⟩
  · exact ⟨_, _, rfl⟩
  · exact ⟨_, _, rfl⟩
  · simp only [handleGoCommand, hr]
    exact goLoop_total s b _ (hwf.2.1 _ (List.getElem?_mem hr)) hwf.2.1
  · exact ⟨_, _, rfl⟩

theorem handleWearCommand_total (s : State) (hwf : WF s) (l : List String) :
    ∃ answer s', handleWearCommand s l = some (answer, s') := by
  obtain ⟨location, hr⟩ : ∃ location, s.rooms[s.player.location]? = some location :=
    ⟨_, List.getElem?_eq_getElem hwf.1⟩
  rcases l with _ | ⟨a, _ | ⟨b, _ | ⟨c, rest⟩⟩⟩
  · exact ⟨_, _, rfl⟩
  · exact ⟨_, _, rfl⟩
  · cases hf : findInContainers (isWearable b) location.containers 0 with
    | none => exact ⟨"нечего надеть", s, by simp [handleWearCommand, hr, hf]⟩
    | some found =>
      obtain ⟨ci, ii, item⟩ := found
      obtain ⟨c, -, -, hrun⟩ := handleWearCommand_found s a b _ ci ii item hr hf
      exact ⟨_, _, hrun⟩
  · exact ⟨_, _, rfl⟩

theorem handleTakeCommand_total (s : State) (hwf : WF s) (l : List String) :
    ∃ answer s', handleTakeCommand s l = some (answer, s') := by
  obtain ⟨location, hr⟩ : ∃ location, s.rooms[s.player.location]? = some location :=
    ⟨_, List.getElem?_eq_getElem hwf.1⟩
  rcases l with _ | ⟨a, _ | ⟨b, _ | ⟨c, rest⟩⟩⟩
  · exact ⟨_, _, rfl⟩
  · exact ⟨_, _, rfl⟩
  · by_cases hon : s.player.container.isPuttedOn = true
    · cases hf : findInContainers (isTakeable b) location.containers 0 with
      | none => exact ⟨"нет такого", s, by simp [handleTakeCommand, hon, hr, hf]⟩
      | some found =>
        obtain ⟨ci, ii, item⟩ := found
        obtain ⟨c, -, -, hrun⟩ := handleTakeCommand_found s a b _ ci ii item hon hr hf
        exact ⟨_, _, hrun⟩
    · simp only [Bool.not_eq_true] at hon
      exact ⟨"некуда класть", s, by simp [handleTakeCommand, hon]⟩
  · exact ⟨_, _, rfl⟩

theorem applyLoop_total (s : State) (item : Item) (ps : List Nat)
    (hps : ∀ p ∈ ps, p < s.rooms.length) :
    ∃ answer s', applyLoop s item ps = some (answer, s') := by
  induction ps with
  | nil => exact ⟨_, _, rfl⟩
  | cons p ps ih =>
    have hp : p < s.rooms.length := hps p (List.mem_cons_self _ _)
    have hr : s.rooms[p]? = some s.rooms[p] := List.getElem?_eq_getElem hp
    simp only [applyLoop, hr]
    split
    · exact ⟨_, _, rfl⟩
    · exact ih (fun q hq => hps q (List.mem_cons_of_mem _ hq))

theorem handleApplyCommand_total (s : State) (hwf : WF s) (l : List String) :
    ∃ answer s', handleApplyCommand s l = some (answer, s') := by
  obtain ⟨location, hr⟩ : ∃ location, s.rooms[s.player.location]? = some location :=
    ⟨_, List.getElem?_eq_getElem hwf.1⟩
  rcases l with _ | ⟨a, _ | ⟨b, _ | ⟨c, _ | ⟨e, rest⟩⟩⟩⟩
  · exact ⟨_, _, rfl⟩
  · exact ⟨_, _, rfl⟩
  · exact ⟨_, _, rfl⟩
  · simp only [handleApplyCommand]
    cases s.player.container.inventory.find? (fun item => item.name = b) with
    | none => exact ⟨_, _, rfl⟩
    | some item =>
      simp only [hr]
      exact applyLoop_total s item _ (hwf.2.1 _ (List.getElem?_mem hr))
  · exact ⟨_, _, rfl⟩

theorem dispatch_total (s : State) (hwf : WF s) (command : String) :
    ∃ answer s', dispatch s command = some (answer, s') := by
  simp only [dispatch]
  cases hs : stringsSplit command with
  | nil => exact absurd hs (stringsSplit_ne_nil command)
  | cons action rest =>
    simp only [List.getElem?_cons_zero]
    split
    · obtain ⟨answer, ha⟩ := lookAround_total s.rooms s.player false hwf.1 hwf.2.1
      exact ⟨answer, s, by simp [handleLookCommand, ha]⟩
    · split
      · exact handleGoCommand_total s hwf _
      · split
        · exact handleWearCommand_total s hwf _
        · split
          · exact handleTakeCommand_total s hwf _
          · split
            · exact handleApplyCommand_total s hwf _
            · exact ⟨_, _, rfl⟩

/-! ## Where a command leaves the player -/

theorem removeFromContainer_player (s : State) (ci ii : Nat) (s' : State)
    (h : removeFromContainer s ci ii = some s') : s'.player = s.player := by
  unfold removeFromContainer at h
  split at h
  · cases h
  · split at h
    · cases h
    · split at h
      · cases h
      · simp only [Option.some.injEq] at h
        rw [← h]

theorem handleWearCommand_location (s : State) (l : List String) (answer : String)
    (s' : State) (h : handleWearCommand s l = some (answer, s')) :
    s'.player.location = s.player.location := by
  unfold handleWearCommand at h
  split at h
  · split at h
    · cases h
    · split at h
      · simp only [Option.map_eq_some', Prod.mk.injEq] at h
        obtain ⟨s2, hrem, -, rfl⟩ := h
        rw [removeFromContainer_player _ _ _ _ hrem]
      · simp only [Option.some.injEq, Prod.mk.injEq] at h
        rw [← h.2]
  · simp only [Option.some.injEq, Prod.mk.injEq] at h
    rw [← h.2]

theorem handleTakeCommand_location (s : State) (l : List String) (answer : String)
    (s' : State) (h : handleTakeCommand s l = some (answer, s')) :
    s'.player.location = s.player.location := by
  unfold handleTakeCommand at h
  split at h
  · split at h
    · simp only [Option.some.injEq, Prod.mk.injEq] at h
      rw [← h.2]
    · split at h
      · cases h
      · split at h
        · simp only [Option.map_eq_some', Prod.mk.injEq] at h
          obtain ⟨s2, hrem, -, rfl⟩ := h
          rw [removeFromContainer_player _ _ _ _ hrem]
        · simp only [Option.some.injEq, Prod.mk.injEq] at h
          rw [← h.2]
  · simp only [Option.some.injEq, Prod.mk.injEq] at h
    rw [← h.2]

theorem applyLoop_player (s : State) (item : Item) (ps : List Nat) (answer : String)
    (s' : State) (h : applyLoop s item ps = some (answer, s')) : s'.player = s.player := by
  induction ps with
  | nil =>
    simp only [applyLoop, Option.some.injEq, Prod.mk.injEq] at h
    rw [← h.2]
  | cons p ps ih =>
    simp only [applyLoop] at h
    split at h
    · cases h
    · split at h
      · simp only [Option.some.injEq, Prod.mk.injEq] at h
        rw [← h.2]
      · exact ih h

theorem handleApplyCommand_player (s : State) (l : List String) (answer : String)
    (s' : State) (h : handleApplyCommand s l = some (answer, s')) : s'.player = s.player := by
  unfold handleApplyCommand at h
  split at h
  · split at h
    · split at h
      · cases h
      · exact applyLoop_player _ _ _ _ _ h
    · simp only [Option.some.injEq, Prod.mk.injEq] at h
      rw [← h.2]
  · simp only [Option.some.injEq, Prod.mk.injEq] at h
    rw [← h.2]

theorem handleGoCommand_location (s : State) (l : List String) (answer : String)
    (s' : State) (h : handleGoCommand s l = some (answer, s')) :
    s'.player.location = s.player.location ∨
      ∃ r, s.rooms[s'.player.location]? = some r ∧ r.isLocked = false := by
  unfold handleGoCommand at h
  split at h
  · split at h
    · cases h
    · rcases goLoop_cases _ _ _ _ _ h with h1 | ⟨p, -, r, hr, hu, -, h2⟩ | ⟨p, -, r, -, -, -, h3⟩
      · rw [h1.1]
        exact Or.inl rfl
      · rw [h2]
        exact Or.inr ⟨r, hr, hu⟩
      · rw [h3]
        exact Or.inl rfl
  · simp only [Option.some.injEq, Prod.mk.injEq] at h
    rw [← h.2]
    exact Or.inl rfl

theorem dispatch_location (s : State) (command : String) (answer : String) (s' : State)
    (h : dispatch s command = some (answer, s')) :
    s'.player.location = s.player.location ∨
      ∃ r, s.rooms[s'.player.location]? = some r ∧ r.isLocked = false := by
  simp only [dispatch] at h
  split at h
  · cases h
  · split at h
    · rw [handleLookCommand_eq _ _ _ h]
      exact Or.inl rfl
    · split at h
      · exact handleGoCommand_location _ _ _ _ h
      · split at h
        · exact Or.inl (handleWearCommand_location _ _ _ _ h)
        · split at h
          · exact Or.inl (handleTakeCommand_location _ _ _ _ h)
          · split at h
            · exact Or.inl (congrArg Player.location (handleApplyCommand_player _ _ _ _ h))
            · simp only [Option.some.injEq, Prod.mk.injEq] at h
              rw [← h.2]
              exact Or.inl rfl

theorem handleCommand_location (s : State) (command : String) (answer : String) (s' : State)
    (h : handleCommand s command = some (answer, s')) :
    s'.player.location = s.player.location ∨
      ∃ r, s'.rooms[s'.player.location]? = some r ∧ r.isLocked = false := by
  simp only [handleCommand] at h
  split at h
  · cases h
  · rename_i s1 he
    have hg := evalGoals_goalsOnly _ _ he
    rcases dispatch_location _ _ _ _ h with h1 | ⟨r, hr, hu⟩
    · rw [h1, hg.1]
      exact Or.inl rfl
    · obtain ⟨r', hr', -, hu'⟩ := stateLe_unlocked_kept (dispatch_le _ _ _ _ h) _ r hr hu
      exact Or.inr ⟨r', hr', hu'⟩

theorem handleCommand_wf (s : State) (command : String) (answer : String) (s' : State)
    (hwf : WF s) (h : handleCommand s command = some (answer, s')) : WF s' := by
  have hle := handleCommand_le _ _ _ _ h
  refine wf_of_le hwf hle ?_
  rcases handleCommand_location _ _ _ _ h with h1 | ⟨r, hr, -⟩
  · rw [h1, ← hle.2.length_eq]
    exact hwf.1
  · exact lt_of_getElem? hr

theorem handleCommand_total (s : State) (hwf : WF s) (command : String) :
    ∃ answer s', handleCommand s command = some (answer, s') := by
  obtain ⟨s1, he⟩ := evalGoals_total s hwf
  obtain ⟨answer, s', hd⟩ := dispatch_total s1 (evalGoals_wf s s1 hwf he) command
  exact ⟨answer, s', by simp [handleCommand, he, hd]⟩

theorem runCommands_total (commands : List String) :
    ∀ s, WF s → ∃ s', runCommands s commands = some s' ∧ WF s' := by
  induction commands with
  | nil => intro s hwf; exact ⟨s, rfl, hwf⟩
  | cons command rest ih =>
    intro s hwf
    obtain ⟨answer, s1, h1⟩ := handleCommand_total s hwf command
    obtain ⟨s', h2, hwf'⟩ := ih s1 (handleCommand_wf _ _ _ _ hwf h1)
    exact ⟨s', by simp [runCommands, h1, h2], hwf'⟩

theorem handleCommand_inUnlockedRoom (s : State) (command : String) (answer : String)
    (s' : State) (hin : InUnlockedRoom s) (h : handleCommand s command = some (answer, s')) :
    InUnlockedRoom s' := by
  rcases handleCommand_location _ _ _ _ h with h1 | hr
  · obtain ⟨r, hr, hu⟩ := hin
    obtain ⟨r', hr', -, hu'⟩ := stateLe_unlocked_kept (handleCommand_le _ _ _ _ h) _ r hr hu
    exact ⟨r', by rw [h1]; exact hr', hu'⟩
  · exact hr

theorem runCommands_inUnlockedRoom (commands : List String) :
    ∀ s s', InUnlockedRoom s → runCommands s commands = some s' → InUnlockedRoom s' := by
  induction commands with
  | nil =>
    intro s s' hin h
    simp only [runCommands, Option.some.injEq] at h
    rw [← h]
    exact hin
  | cons command rest ih =>
    intro s s' hin h
    simp only [runCommands] at h
    split at h
    · cases h
    · rename_i answer s1 hc
      exact ih s1 s' (handleCommand_inUnlockedRoom _ _ _ _ hin hc) h

/-! ## C11: the player is never inside a locked room -/

/-- C11: every sequence of command lines runs from the initial state to a state in
which the room the player is in is not locked; and from any state whatever, a go
command that changes the player's location puts the player in a room that is not
locked. -/
theorem never_in_locked_room (commands : List String) :
    (∃ s, runCommands initGame commands = some s ∧
      ∃ r, s.rooms[s.player.location]? = some r ∧ r.isLocked = false) ∧
    (∀ (s : State) (d answer : String) (s' : State),
      handleGoCommand s ["идти", d] = some (answer, s') →
      s'.player.location ≠ s.player.location →
      ∃ r, s'.rooms[s'.player.location]? = some r ∧ r.isLocked = false) := by
  constructor
  · obtain ⟨s, hrun, -⟩ := runCommands_total commands initGame wf_initGame
    exact ⟨s, hrun, runCommands_inUnlockedRoom commands initGame s
      ⟨kitchen, by decide, by decide⟩ hrun⟩
  · intro s d answer s' hgo hne
    rcases handleGoCommand_location _ _ _ _ hgo with h1 | ⟨r, hr, hu⟩
    · exact absurd h1 hne
    · obtain ⟨r', hr', -, hu'⟩ := stateLe_unlocked_kept (handleGoCommand_le _ _ _ _ hgo) _ r hr hu
      exact ⟨r', hr', hu'⟩

/-! ## C18: `handleCommand` never crashes -/

/-- C18: every sequence of command lines runs from the initial state to a state `s`
(no command on the way stops with a run-time error), and in `s`: for every input
line the token list is not empty, so token 0 exists, and `handleCommand` returns an
answer and a state; the world maps "кухня" to a room with at least two goals, so
`goals[0]` and `goals[1]` exist; and whenever the search of the take or the wear
handler stops at an item, its indices lie inside the container, so the slice
removal succeeds. -/
theorem handleCommand_never_crashes (commands : List String) :
    ∃ s, runCommands initGame commands = some s ∧
      (∀ line : String, stringsSplit line ≠ [] ∧
        (∃ action, (stringsSplit line)[0]? = some action) ∧
        ∃ answer s', handleCommand s line = some (answer, s')) ∧
      (∃ k kr g0 g1, s.world.lookup "кухня" = some k ∧ s.rooms[k]? = some kr ∧
        2 ≤ kr.goals.length ∧ kr.goals[0]? = some g0 ∧ kr.goals[1]? = some g1) ∧
      (∀ (n : String) (location : Room) (ci ii : Nat) (item : Item),
        s.rooms[s.player.location]? = some location →
        (findInContainers (isTakeable n) location.containers 0 = some (ci, ii, item) ∨
          findInContainers (isWearable n) location.containers 0 = some (ci, ii, item)) →
        ∃ c, location.containers[ci]? = some c ∧ ii < c.inventory.length ∧
          removeAt c.inventory ii = some (c.inventory.eraseIdx ii)) := by
  obtain ⟨s, hrun, hwf⟩ := runCommands_total commands initGame wf_initGame
  refine ⟨s, hrun, ?_, ?_, ?_⟩
  · intro line
    refine ⟨stringsSplit_ne_nil line, ?_, handleCommand_total s hwf line⟩
    cases hs : stringsSplit line with
    | nil => exact absurd hs (stringsSplit_ne_nil line)
    | cons action rest => exact ⟨action, by simp⟩
  · obtain ⟨-, -, k, hw, kr, hk, hlen⟩ := hwf
    exact ⟨k, kr, kr.goals[0], kr.goals[1], hw, hk, hlen,
      List.getElem?_eq_getElem (by omega), List.getElem?_eq_getElem (by omega)⟩
  · intro n location ci ii item _ hfind
    rcases hfind with hf | hf
    · obtain ⟨j, c, hj, hc, hitem, -, -, -⟩ := findInContainers_eq_some _ _ _ _ _ _ hf
      have hci : j = ci := by omega
      subst hci
      exact ⟨c, hc, lt_of_getElem? hitem, removeAt_of_getElem? _ _ _ hitem⟩
    · obtain ⟨j, c, hj, hc, hitem, -, -, -⟩ := findInContainers_eq_some _ _ _ _ _ _ hf
      have hci : j = ci := by omega
      subst hci
      exact ⟨c, hc, lt_of_getElem? hitem, removeAt_of_getElem? _ _ _ hitem⟩

/-! ## C12 and C13: unknown commands and arity errors -/

theorem handleCommand_of_dispatch (s s1 : State) (line answer : String) (s' : State)
    (he : evalGoals s = some s1) (hd : dispatch s1 line = some (answer, s')) :
    handleCommand s line = some (answer, s') := by
  simp [handleCommand, he, hd]

theorem dispatch_unknown (s : State) (line action : String)
    (htok : (stringsSplit line)[0]? = some action)
    (h1 : action ≠ "осмотреться") (h2 : action ≠ "идти") (h3 : action ≠ "надеть")
    (h4 : action ≠ "взять") (h5 : action ≠ "применить") :
    dispatch s line = some ("неизвестная команда", s) := by
  simp [dispatch, htok, h1, h2, h3, h4, h5]

theorem splitChars_word (w rest : List Char) (h : ∀ c ∈ w, c ≠ ' ') :
    splitChars (w ++ ' ' :: rest) = w :: splitChars rest := by
  induction w with
  | nil => simp [splitChars]
  | cons c w ih =>
    have hc : c ≠ ' ' := h c (List.mem_cons_self _ _)
    have ih' := ih (fun x hx => h x (List.mem_cons_of_mem _ hx))
    simp [splitChars, hc, ih']

theorem stringsSplit_flying (operands : String) :
    (stringsSplit ("летать " ++ operands))[0]? = some "летать" := by
  have hd : ("летать " ++ operands).data =
      ['л', 'е', 'т', 'а', 'т', 'ь'] ++ ' ' :: operands.data := by
    rw [String.data_append]
    rfl
  rw [stringsSplit, hd, splitChars_word _ _ (by decide)]
  simp only [List.map_cons, List.getElem?_cons_zero, Option.some.injEq]

theorem handleGoCommand_arity (s : State) (l : List String) (h : l.length ≠ 2) :
    handleGoCommand s l = some ("неверное количество аргументов для команды 'идти'", s) := by
  rcases l with _ | ⟨a, _ | ⟨b, _ | ⟨c, rest⟩⟩⟩
  · rfl
  · rfl
  · exact absurd rfl h
  · rfl

theorem handleWearCommand_arity (s : State) (l : List String) (h : l.length ≠ 2) :
    handleWearCommand s l =
      some ("неверное количество аргументов для команды 'надеть'", s) := by
  rcases l with _ | ⟨a, _ | ⟨b, _ | ⟨c, rest⟩⟩⟩
  · rfl
  · rfl
  · exact absurd rfl h
  · rfl

theorem handleTakeCommand_arity (s : State) (l : List String) (h : l.length ≠ 2) :
    handleTakeCommand s l =
      some ("неверное количество аргументов для команды 'взять'", s) := by
  rcases l with _ | ⟨a, _ | ⟨b, _ | ⟨c, rest⟩⟩⟩
  · rfl
  · rfl
  · exact absurd rfl h
  · rfl

theorem handleApplyCommand_arity (s : State) (l : List String) (h : l.length ≠ 3) :
    handleApplyCommand s l =
      some ("неверное количество аргументов для команды 'применить'", s) := by
  rcases l with _ | ⟨a, _ | ⟨b, _ | ⟨c, _ | ⟨e, rest⟩⟩⟩⟩
  · rfl
  · rfl
  · rfl
  · exact absurd rfl h
  · rfl

theorem dispatch_arity (s : State) (line action : String)
    (htok : (stringsSplit line)[0]? = some action)
    (harity : ((action = "идти" ∨ action = "надеть" ∨ action = "взять") ∧
        (stringsSplit line).length ≠ 2) ∨
      (action = "применить" ∧ (stringsSplit line).length ≠ 3)) :
    dispatch s line =
      some ("неверное количество аргументов для команды '" ++ action ++ "'", s) := by
  have e1 : "идти" ≠ "осмотреться" := by decide
  have e2 : "надеть" ≠ "осмотреться" := by decide
  have e3 : "надеть" ≠ "идти" := by decide
  have e4 : "взять" ≠ "осмотреться" := by decide
  have e5 : "взять" ≠ "идти" := by decide
  have e6 : "взять" ≠ "надеть" := by decide
  have e7 : "применить" ≠ "осмотреться" := by decide
  have e8 : "применить" ≠ "идти" := by decide
  have e9 : "применить" ≠ "надеть" := by decide
  have e10 : "применить" ≠ "взять" := by decide
  rcases harity with ⟨rfl | rfl | rfl, hlen⟩ | ⟨rfl, hlen⟩
  · simp only [dispatch, htok, e1, if_false, if_true, handleGoCommand_arity s _ hlen]
    rfl
  · simp only [dispatch, htok, e2, e3, if_false, if_true, handleWearCommand_arity s _ hlen]
    rfl
  · simp only [dispatch, htok, e4, e5, e6, if_false, if_true,
      handleTakeCommand_arity s _ hlen]
    rfl
  · simp only [dispatch, htok, e7, e8, e9, e10, if_false, if_true,
      handleApplyCommand_arity s _ hlen]
    rfl

/-- C12: in a well-formed state, on a line whose first token is none of
"осмотреться", "идти", "надеть", "взять", "применить", `handleCommand` evaluates the
goals and answers "неизвестная команда"; the state it returns is the state after
the goal evaluation, which differs from the state before in goal flags at most:
the player (location, inventory, `isPuttedOn`), the world map and the name, texts,
containers, exits and lock flag of every room are unchanged. The empty line and
"летать" followed by any operands are such lines. -/
theorem handleCommand_unknown (s : State) (line action : String) (hwf : WF s)
    (htok : (stringsSplit line)[0]? = some action)
    (h1 : action ≠ "осмотреться") (h2 : action ≠ "идти") (h3 : action ≠ "надеть")
    (h4 : action ≠ "взять") (h5 : action ≠ "применить") :
    (∃ s1, evalGoals s = some s1 ∧
      handleCommand s line = some ("неизвестная команда", s1) ∧
      GoalsOnly s s1 ∧ s1.rooms.length = s.rooms.length ∧
      ∀ (i : Nat) (r : Room), s.rooms[i]? = some r →
        ∃ r', s1.rooms[i]? = some r' ∧ r'.containers = r.containers ∧
          r'.isLocked = r.isLocked) ∧
    (∃ s1, handleCommand s "" = some ("неизвестная команда", s1)) ∧
    (∀ operands : String, ∃ s1,
      handleCommand s ("летать " ++ operands) = some ("неизвестная команда", s1)) := by
  obtain ⟨s1, he⟩ := evalGoals_total s hwf
  have hg := evalGoals_goalsOnly s s1 he
  refine ⟨⟨s1, he, ?_, hg, hg.2.2.length_eq.symm, ?_⟩, ⟨s1, ?_⟩, ?_⟩
  · exact handleCommand_of_dispatch s s1 line _ s1 he
      (dispatch_unknown s1 line action htok h1 h2 h3 h4 h5)
  · intro i r hr
    obtain ⟨r', hr', hle⟩ := goalsOnly_room hg i r hr
    exact ⟨r', hr', hle.2.2.1, hle.2.2.2.2.1⟩
  · exact handleCommand_of_dispatch s s1 "" _ s1 he
      (dispatch_unknown s1 "" "" (by decide) (by decide) (by decide) (by decide) (by decide)
        (by decide))
  · intro operands
    exact ⟨s1, handleCommand_of_dispatch s s1 _ _ s1 he
      (dispatch_unknown s1 _ "летать" (stringsSplit_flying operands) (by decide) (by decide)
        (by decide) (by decide) (by decide))⟩

/-- C12 at the initial state: "летать высоко" is unknown and nothing changes. -/
theorem handleCommand_unknown_witness :
    WF initGame ∧ (stringsSplit "летать высоко")[0]? = some "летать" ∧
    (∃ s1, evalGoals initGame = some s1 ∧
      handleCommand initGame "летать высоко" = some ("неизвестная команда", s1) ∧
      GoalsOnly initGame s1) ∧
    handleCommand initGame "летать высоко" = some ("неизвестная команда", initGame) ∧
    handleCommand initGame "" = some ("неизвестная команда", initGame) := by
  have h := handleCommand_unknown initGame "летать высоко" "летать" wf_initGame (by decide)
    (by decide) (by decide) (by decide) (by decide) (by decide)
  obtain ⟨s1, he, hrun, hg, -⟩ := h.1
  exact ⟨wf_initGame, by decide, ⟨s1, he, hrun, hg⟩, by decide, by decide⟩

/-- C13: in a well-formed state, on a line whose first token is "идти", "надеть" or
"взять" and whose number of tokens is not 2, or whose first token is "применить" and
whose number of tokens is not 3, `handleCommand` evaluates the goals and answers
"неверное количество аргументов для команды '<action>'" for that action; the state
it returns is the state after the goal evaluation, which differs from the state
before in goal flags at most. -/
theorem handleCommand_arity (s : State) (line action : String) (hwf : WF s)
    (htok : (stringsSplit line)[0]? = some action)
    (harity : ((action = "идти" ∨ action = "надеть" ∨ action = "взять") ∧
        (stringsSplit line).length ≠ 2) ∨
      (action = "применить" ∧ (stringsSplit line).length ≠ 3)) :
    ∃ s1, evalGoals s = some s1 ∧
      handleCommand s line =
        some ("неверное количество аргументов для команды '" ++ action ++ "'", s1) ∧
      GoalsOnly s s1 ∧ s1.rooms.length = s.rooms.length ∧
      ∀ (i : Nat) (r : Room), s.rooms[i]? = some r →
        ∃ r', s1.rooms[i]? = some r' ∧ r'.containers = r.containers ∧
          r'.isLocked = r.isLocked := by
  obtain ⟨s1, he⟩ := evalGoals_total s hwf
  have hg := evalGoals_goalsOnly s s1 he
  refine ⟨s1, he, ?_, hg, hg.2.2.length_eq.symm, ?_⟩
  · exact handleCommand_of_dispatch s s1 line _ s1 he (dispatch_arity s1 line action htok harity)
  · intro i r hr
    obtain ⟨r', hr', hle⟩ := goalsOnly_room hg i r hr
    exact ⟨r', hr', hle.2.2.1, hle.2.2.2.2.1⟩

/-- C13 at a concrete state: with the backpack on in the room, "взять  ключи" with two
spaces has three tokens and is a usage error; the keys stay on the table. -/
theorem handleCommand_arity_witness :
    stringsSplit "взять  ключи" = ["взять", "", "ключи"] ∧
    (∃ s1, evalGoals wornInRoom = some s1 ∧
      handleCommand wornInRoom "взять  ключи" =
        some ("неверное количество аргументов для команды '" ++ "взять" ++ "'", s1) ∧
      GoalsOnly wornInRoom s1) ∧
    handleCommand wornInRoom "взять  ключи" =
      some ("неверное количество аргументов для команды 'взять'", wornInRoom) ∧
    handleCommand wornInRoom "применить ключи" =
      some ("неверное количество аргументов для команды 'применить'", wornInRoom) ∧
    handleCommand wornInRoom "идти" =
      some ("неверное количество аргументов для команды 'идти'", wornInRoom) ∧
    handleCommand wornInRoom "надеть рюкзак сейчас" =
      some ("неверное количество аргументов для команды 'надеть'", wornInRoom) := by
  have hwf : WF wornInRoom :=
    ⟨by decide, by decide, kitchenAddr, by decide, kitchen, by decide, by decide⟩
  obtain ⟨s1, he, hrun, hg, -⟩ := handleCommand_arity wornInRoom "взять  ключи" "взять" hwf
    (by decide) (Or.inl ⟨Or.inr (Or.inr rfl), by decide⟩)
  exact ⟨by decide, ⟨s1, he, hrun, hg⟩, by decide, by decide, by decide, by decide⟩

end Game
